import Mathlib

/-!
# Node gateway plumbing for user defined networks

A shallow embedding of `go-controller/pkg/node/gateway_udn.go`: the bridge
configuration cache, the derivation of the per network conntrack mark, and the
management port / VRF sequencing of `AddNetwork` and `DelNetwork`.

Conventions of the embedding.

* Go's `int` and `uint` are 64 bit words, represented by `Int` and `Nat` with
  explicit reduction modulo `2 ^ 64`.
* A Go `map[string]*T` is an association list with one pair per key; the order
  of the list stands for the (unspecified) order in which `range` visits the
  map, and the pointer stored under a key is represented by its pointee.
* Calls to collaborators outside the file (OVS, netlink, the Kubernetes API,
  the VRF manager) are answered by an environment of functions that may depend
  on the whole history of earlier calls, and every such call is appended to
  that history together with the answer it got.
* `fmt.Errorf` is kept symbolic: an error built by it records the format
  string, the operands and the error operand.
-/

namespace GatewayUDN

/-! ## Machine words -/

/-- Number of bits of Go's `int` and `uint` on the 64 bit targets of the node agent. -/
def wordBits : Nat := 64

/-- Number of values of a `uint`. -/
def uintModulus : Nat := 2 ^ wordBits

/-- The values an `int` can take. -/
def intInRange (i : Int) : Prop := -(2 : Int) ^ 63 ≤ i ∧ i < (2 : Int) ^ 63

instance (i : Int) : Decidable (intInRange i) := by
  unfold intInRange; exact inferInstance

/-- Go conversion `uint(i)` of an `int`: the two's complement reinterpretation. -/
def uintOfInt (i : Int) : Nat := (i % (uintModulus : Int)).toNat

/-- Addition of two `uint` values, wrapping around. -/
def uintAdd (a b : Nat) : Nat := (a + b) % uintModulus

/-! ## Formatting with `%x` -/

/-- The digit table `ldigits` of Go's `fmt` package. -/
def ldigits : List Char := "0123456789abcdefx".toList

/-- The character `ldigits[d]`. -/
def hexDigitChar (d : Nat) : Char := ldigits.getD d '0'

/-- The digit loop of `fmt.fmtInteger` for base 16: while `u >= 16` the low
nibble is written in front of the digits produced so far and `u` is shifted
right by four bits; the last nibble is written when `u < 16`. The first
argument bounds the number of digits (the buffer of `fmt` is finite). -/
def hexDigitsAux : Nat → Nat → List Char → List Char
  | 0, _, acc => acc
  | fuel + 1, u, acc =>
    if 16 ≤ u then hexDigitsAux fuel (u / 16) (hexDigitChar (u % 16) :: acc)
    else hexDigitChar u :: acc

/-- Digits printed by `%x` for a `uint`: sixteen digits are enough for 64 bits. -/
def hexDigits (u : Nat) : List Char := hexDigitsAux 16 u []

/-- Result of `fmt.Sprintf("0x%x", u)` for a `uint` value `u`. -/
def sprintf0x (u : Nat) : String := "0x" ++ String.mk (hexDigits u)

/-- Value of one lowercase hexadecimal digit (0 for any other character). -/
def hexCharValue (c : Char) : Nat :=
  if '0' ≤ c ∧ c ≤ '9' then c.toNat - '0'.toNat
  else if 'a' ≤ c ∧ c ≤ 'f' then c.toNat - 'a'.toNat + 10
  else 0

/-- Number denoted by a list of hexadecimal digits, most significant first. -/
def hexValue (ds : List Char) : Nat := ds.foldl (fun acc c => acc * 16 + hexCharValue c) 0

/-- The sixteen lowercase hexadecimal digits. -/
def isLowerHexDigit (c : Char) : Prop := c ∈ "0123456789abcdef".toList

/-! ## Data model -/

/-- Go's `net.IPNet`: the bytes of the address and of the mask. -/
structure IPNet where
  IP : List Nat
  Mask : List Nat
deriving DecidableEq, Repr

/-- Go's `net.HardwareAddr`: the bytes of a MAC address. -/
abbrev HardwareAddr := List Nat

/-- The part of `netlink.LinkAttrs` that the gateway reads. -/
structure Link where
  Index : Int
  Name : String
deriving DecidableEq, Repr

/-- An operand of a symbolic `fmt.Errorf`. -/
inductive FmtArg where
  | str (s : String)
  | int (i : Int)
  | ipnet (n : IPNet)
deriving DecidableEq, Repr

/-- Go `error` values: an error handed back by a collaborator, or one built by
`fmt.Errorf` from a format string, its operands and, last, an error operand. -/
inductive Error where
  | collaborator (msg : String)
  | errorf (format : String) (args : List FmtArg)
  | errorfErr (format : String) (args : List FmtArg) (err : Error)
deriving DecidableEq, Repr

/-- One element of `NetInfo.Subnets()`. -/
structure CIDRNetworkSpec where
  CIDR : IPNet
  HostSubnetLength : Int
deriving DecidableEq, Repr

/-- Topology name of layer 3 networks (`types.Layer3Topology`). -/
def Layer3Topology : String := "layer3"

/-- Topology name of layer 2 networks (`types.Layer2Topology`). -/
def Layer2Topology : String := "layer2"

/-- The methods of the `util.NetInfo` interface that this file calls. -/
structure NetInfo where
  GetNetworkName : String
  GetNetworkScopedPatchPortName : String → String → String
  GetNetworkScopedK8sMgmtIntfName : String → String
  TopologyType : String
  Subnets : List CIDRNetworkSpec
  MTU : Int

/-- The part of a `v1.Node` that this file reads itself. -/
structure Node where
  Name : String
  Annotations : List (String × String)
deriving DecidableEq, Repr

/-- Go struct `bridgeUDNConfiguration`. -/
structure bridgeUDNConfiguration where
  patchPort : String
  ofPortPatch : String
  masqCTMark : String
  v4MasqIP : Option IPNet
  v6MasqIP : Option IPNet
deriving DecidableEq, Repr

/-- The zero value of `bridgeUDNConfiguration`. -/
def bridgeUDNConfiguration.zero : bridgeUDNConfiguration :=
  { patchPort := "", ofPortPatch := "", masqCTMark := "", v4MasqIP := none, v6MasqIP := none }

/-! ## Go maps keyed by strings -/

/-- Map read `m[key]` with its presence flag. -/
def mapLookup {β : Type} : List (String × β) → String → Option β
  | [], _ => none
  | (k, v) :: rest, key => if k = key then some v else mapLookup rest key

/-- Map write `m[key] = v`: replaces the value of a present key, adds an absent one. -/
def mapStore {β : Type} : List (String × β) → String → β → List (String × β)
  | [], key, v => [(key, v)]
  | (k, w) :: rest, key, v =>
    if k = key then (k, v) :: rest else (k, w) :: mapStore rest key v

/-- Go's `delete(m, key)`. -/
def mapDelete {β : Type} (m : List (String × β)) (key : String) : List (String × β) :=
  m.filter (fun e => !decide (e.1 = key))

/-- A map holds every key at most once. -/
def mapWF {β : Type} (m : List (String × β)) : Prop := (m.map Prod.fst).Nodup

/-- Number of entries stored under a key. -/
def mapCount {β : Type} (m : List (String × β)) (key : String) : Nat :=
  m.countP (fun e => decide (e.1 = key))

/-! ## The bridge configuration cache -/

/-- The fields of Go struct `bridgeConfiguration` that this file uses (the
mutex is left out: every operation below runs to its end while holding it). -/
structure bridgeConfiguration where
  nodeName : String
  bridgeName : String
  uplinkName : String
  ofPortPhys : String
  netConfig : List (String × bridgeUDNConfiguration)
deriving DecidableEq, Repr

/-- Method `getBridgePortConfigurations`: `make` builds a slice of
`len(b.netConfig)` zero values and the loop appends one copy per entry. -/
def getBridgePortConfigurations (b : bridgeConfiguration) :
    List bridgeUDNConfiguration × String × String :=
  let netConfigs := List.replicate b.netConfig.length bridgeUDNConfiguration.zero
  let netConfigs := b.netConfig.foldl (fun acc e => acc ++ [e.2]) netConfigs
  (netConfigs, b.uplinkName, b.ofPortPhys)

/-- Method `addNetworkBridgeConfig` (the warning it logs for a present name
has no effect on the cache). -/
def addNetworkBridgeConfig (b : bridgeConfiguration) (nInfo : NetInfo) (masqCTMark : Nat)
    (v4MasqIP v6MasqIP : Option IPNet) : bridgeConfiguration :=
  let netName := nInfo.GetNetworkName
  let patchPort := nInfo.GetNetworkScopedPatchPortName b.bridgeName b.nodeName
  match mapLookup b.netConfig netName with
  | none =>
    let netConfig : bridgeUDNConfiguration :=
      { patchPort := patchPort
        ofPortPatch := ""
        masqCTMark := sprintf0x masqCTMark
        v4MasqIP := v4MasqIP
        v6MasqIP := v6MasqIP }
    { b with netConfig := mapStore b.netConfig netName netConfig }
  | some _ => b

/-- Method `delNetworkBridgeConfig`. -/
def delNetworkBridgeConfig (b : bridgeConfiguration) (nInfo : NetInfo) : bridgeConfiguration :=
  { b with netConfig := mapDelete b.netConfig nInfo.GetNetworkName }

/-- Method `patchedNetConfigs`: the loop skips an entry whose `ofPortPatch` is
the empty string and appends every other one. -/
def patchedNetConfigs (b : bridgeConfiguration) : List bridgeUDNConfiguration :=
  b.netConfig.foldl
    (fun result e => if e.2.ofPortPatch = "" then result else result ++ [e.2]) []

/-! ## Collaborators and the history of calls -/

/-- Go struct `udn.MasqueradeIPs`; both fields are pointers and may be nil. -/
structure MasqueradeIPs where
  GatewayRouter : Option IPNet
  ManagementPort : Option IPNet
deriving DecidableEq, Repr

/-- A call to a collaborator together with the values it returned. -/
inductive Event where
  | RunOVSVsctl (args : List String) (stdout stderr : String) (err : Option Error)
  | GetOVSOfPort (args : List String) (ofport stderr : String) (err : Option Error)
  | GetOVSPortMACAddress (interfaceName : String) (mac : HardwareAddr) (err : Option Error)
  | LinkSetUp (interfaceName : String) (link : Link) (err : Option Error)
  | LinkAddrExist (link : Link) (ip : IPNet) (found : Bool) (err : Option Error)
  | LinkAddrAdd (link : Link) (ip : IPNet) (err : Option Error)
  | UpdateNodeManagementPortMACAddressesWithRetry (node : Node) (mac : Option HardwareAddr)
      (netName : String) (err : Option Error)
  | AddVRF (vrfDeviceName mplinkName : String) (table : Nat) (err : Option Error)
  | DeleteVRF (vrfDeviceName : String) (err : Option Error)
deriving DecidableEq, Repr

/-- The calls made so far, oldest first. -/
abbrev Log := List Event

/-- Everything the file takes from outside: the two global mode flags of
package `config`, the pure helpers of packages `util`, `udn`, `utilnet` and
`net`, and the collaborators with side effects. A collaborator returns what Go
returns (value and error side by side) and may answer differently depending on
the calls made before. -/
structure Env where
  IPv4Mode : Bool
  IPv6Mode : Bool
  GetVRFDeviceNameForUDN : Int → String
  GetNetworkScopedK8sMgmtHostIntfName : Nat → String
  CalculateRouteTableID : Int → Int
  GetNodeManagementIfAddr : IPNet → IPNet
  IsIPv4CIDR : IPNet → Bool
  IsIPv6CIDR : IPNet → Bool
  ParseNodeHostSubnetAnnotation : Node → String → List IPNet × Option Error
  AllocateV4MasqueradeIPs : Int → MasqueradeIPs × Option Error
  AllocateV6MasqueradeIPs : Int → MasqueradeIPs × Option Error
  HardwareAddrString : HardwareAddr → String
  RunOVSVsctl : Log → List String → String × String × Option Error
  GetOVSOfPort : Log → List String → String × String × Option Error
  GetOVSPortMACAddress : Log → String → HardwareAddr × Option Error
  LinkSetUp : Log → String → Link × Option Error
  LinkAddrExist : Log → Link → IPNet → Bool × Option Error
  LinkAddrAdd : Log → Link → IPNet → Option Error
  UpdateNodeManagementPortMACAddressesWithRetry :
    Log → Node → Option HardwareAddr → String → Option Error
  AddVRF : Log → String → String → Nat → Option Error
  DeleteVRF : Log → String → Option Error

/-! ## Resolving the patch port -/

/-- Method `setBridgeNetworkOfPortsInternal`; the updated receiver is returned. -/
def setBridgeNetworkOfPortsInternal (env : Env) (netConfig : bridgeUDNConfiguration)
    (log : Log) : Option Error × bridgeUDNConfiguration × Log :=
  let args := ["get", "Interface", netConfig.patchPort, "ofport"]
  let r := env.GetOVSOfPort log args
  let log1 := log ++ [Event.GetOVSOfPort args r.1 r.2.1 r.2.2]
  match r.2.2 with
  | some err =>
    (some (Error.errorfErr
      ("failed while waiting on patch port %q to be created by ovn-controller and " ++
        "while getting ofport. stderr: %q, error: %v")
      [FmtArg.str netConfig.patchPort, FmtArg.str r.2.1] err), netConfig, log1)
  | none => (none, { netConfig with ofPortPatch := r.1 }, log1)

/-- Function `setBridgeNetworkOfPorts`; the write through the pointer found in
the map becomes a store of the updated entry under the same key. -/
def setBridgeNetworkOfPorts (env : Env) (bridge : bridgeConfiguration) (netName : String)
    (log : Log) : Option Error × bridgeConfiguration × Log :=
  match mapLookup bridge.netConfig netName with
  | none =>
    (some (Error.errorf "failed to find network %s configuration on bridge %s"
      [FmtArg.str netName, FmtArg.str bridge.bridgeName]), bridge, log)
  | some netConfig =>
    let r := setBridgeNetworkOfPortsInternal env netConfig log
    (r.1, { bridge with netConfig := mapStore bridge.netConfig netName r.2.1 }, r.2.2)

/-! ## The gateway of one user defined network -/

/-- The conntrack mark base `ctMarkUDNBase`. -/
def ctMarkUDNBase : Nat := 3

/-- Go struct `UserDefinedNetworkGateway`; the node lister, the Kubernetes
interface and the VRF manager it holds are the collaborators of `Env`. -/
structure UserDefinedNetworkGateway where
  netInfo : NetInfo
  networkID : Int
  node : Node
  masqCTMark : Nat
  v4MasqIP : Option IPNet
  v6MasqIP : Option IPNet

/-- Function `NewUserDefinedNetworkGateway`. -/
def NewUserDefinedNetworkGateway (env : Env) (netInfo : NetInfo) (networkID : Int)
    (node : Node) : Except Error UserDefinedNetworkGateway :=
  let masqCTMark := uintAdd ctMarkUDNBase (uintOfInt networkID)
  let v4 : Except Error (Option IPNet) :=
    if env.IPv4Mode then
      let r := env.AllocateV4MasqueradeIPs networkID
      match r.2 with
      | some err =>
        Except.error (Error.errorfErr "failed to get v4 masquerade IP, network %s (%d): %v"
          [FmtArg.str netInfo.GetNetworkName, FmtArg.int networkID] err)
      | none => Except.ok r.1.GatewayRouter
    else Except.ok none
  match v4 with
  | Except.error e => Except.error e
  | Except.ok v4MasqIP =>
    let v6 : Except Error (Option IPNet) :=
      if env.IPv6Mode then
        let r := env.AllocateV6MasqueradeIPs networkID
        match r.2 with
        | some err =>
          Except.error (Error.errorfErr "failed to get v6 masquerade IP, network %s (%d): %v"
            [FmtArg.str netInfo.GetNetworkName, FmtArg.int networkID] err)
        | none => Except.ok r.1.GatewayRouter
      else Except.ok none
    match v6 with
    | Except.error e => Except.error e
    | Except.ok v6MasqIP =>
      Except.ok
        { netInfo := netInfo
          networkID := networkID
          node := node
          masqCTMark := masqCTMark
          v4MasqIP := v4MasqIP
          v6MasqIP := v6MasqIP }

/-- The subnets of the network that matter on this node, computed at the head
of `addUDNManagementPort`: parsed from the node for layer 3, the CIDRs of the
network for layer 2, none for any other topology. -/
def networkLocalSubnets (env : Env) (udng : UserDefinedNetworkGateway) :
    Except Error (List IPNet) :=
  if udng.netInfo.TopologyType = Layer3Topology then
    let r := Env.ParseNodeHostSubnetAnnotation env udng.node udng.netInfo.GetNetworkName
    match r.2 with
    | some err =>
      Except.error (Error.errorfErr
        "waiting for node %s to start, no annotation found on node for network %s: %w"
        [FmtArg.str udng.node.Name, FmtArg.str udng.netInfo.GetNetworkName] err)
    | none => Except.ok r.1
  else if udng.netInfo.TopologyType = Layer2Topology then
    Except.ok (udng.netInfo.Subnets.foldl (fun acc s => acc ++ [s.CIDR]) [])
  else Except.ok []

/-- The loop of STEP4 in `addUDNManagementPort` over the local subnets. -/
def addManagementPortIPs (env : Env) (udng : UserDefinedNetworkGateway)
    (interfaceName : String) (mplink : Link) : List IPNet → Log → Option Error × Log
  | [], log => (none, log)
  | subnet :: rest, log =>
    if env.IPv6Mode && env.IsIPv6CIDR subnet || env.IPv4Mode && env.IsIPv4CIDR subnet then
      let ip := env.GetNodeManagementIfAddr subnet
      let r := env.LinkAddrExist log mplink ip
      let log1 := log ++ [Event.LinkAddrExist mplink ip r.1 r.2]
      let fmtErr : Error → Error := fun err =>
        Error.errorfErr
          ("failed to add management port IP from subnet %s to netdevice %s for " ++
            "network %s, err: %v")
          [FmtArg.ipnet subnet, FmtArg.str interfaceName,
            FmtArg.str udng.netInfo.GetNetworkName] err
      match r.2 with
      | some err => (some (fmtErr err), log1)
      | none =>
        if r.1 then addManagementPortIPs env udng interfaceName mplink rest log1
        else
          let err := env.LinkAddrAdd log1 mplink ip
          let log2 := log1 ++ [Event.LinkAddrAdd mplink ip err]
          match err with
          | some err => (some (fmtErr err), log2)
          | none => addManagementPortIPs env udng interfaceName mplink rest log2
    else addManagementPortIPs env udng interfaceName mplink rest log

/-- The name `util.GetNetworkScopedK8sMgmtHostIntfName(uint(udng.networkID))`. -/
def mgmtInterfaceName (env : Env) (udng : UserDefinedNetworkGateway) : String :=
  env.GetNetworkScopedK8sMgmtHostIntfName (uintOfInt udng.networkID)

/-- The arguments of the `add-port` command of STEP1. -/
def addPortArgs (env : Env) (udng : UserDefinedNetworkGateway) : List String :=
  let interfaceName := mgmtInterfaceName env udng
  ["--", "--may-exist", "add-port", "br-int", interfaceName,
    "--", "set", "interface", interfaceName,
    "type=internal", "mtu_request=" ++ toString udng.netInfo.MTU,
    "external-ids:iface-id=" ++ udng.netInfo.GetNetworkScopedK8sMgmtIntfName udng.node.Name]

/-- Method `addUDNManagementPort`. -/
def addUDNManagementPort (env : Env) (udng : UserDefinedNetworkGateway) (log : Log) :
    Except Error Link × Log :=
  let interfaceName := mgmtInterfaceName env udng
  let netName := udng.netInfo.GetNetworkName
  match networkLocalSubnets env udng with
  | Except.error e => (Except.error e, log)
  | Except.ok subnets =>
    -- STEP1
    let r1 := env.RunOVSVsctl log (addPortArgs env udng)
    let log1 := log ++ [Event.RunOVSVsctl (addPortArgs env udng) r1.1 r1.2.1 r1.2.2]
    match r1.2.2 with
    | some err =>
      (Except.error (Error.errorfErr
        "failed to add port to br-int for network %s, stdout: %q, stderr: %q, error: %w"
        [FmtArg.str netName, FmtArg.str r1.1, FmtArg.str r1.2.1] err), log1)
    | none =>
      -- STEP2
      let r2 := env.GetOVSPortMACAddress log1 interfaceName
      let log2 := log1 ++ [Event.GetOVSPortMACAddress interfaceName r2.1 r2.2]
      match r2.2 with
      | some err =>
        (Except.error (Error.errorfErr
          "failed to get management port MAC address for network %s: %v"
          [FmtArg.str netName] err), log2)
      | none =>
        let macAddress := r2.1
        let setArgs := ["set", "interface", interfaceName,
          "mac=" ++ (env.HardwareAddrString macAddress).replace ":" "\\:"]
        let r3 := env.RunOVSVsctl log2 setArgs
        let log3 := log2 ++ [Event.RunOVSVsctl setArgs r3.1 r3.2.1 r3.2.2]
        match r3.2.2 with
        | some err =>
          (Except.error (Error.errorfErr
            ("failed to persist MAC address %q for %q while plumbing network %s: " ++
              "stderr:%s (%v)")
            [FmtArg.str (env.HardwareAddrString macAddress), FmtArg.str interfaceName,
              FmtArg.str netName, FmtArg.str r3.2.1] err), log3)
        | none =>
          -- STEP3
          let r4 := env.LinkSetUp log3 interfaceName
          let log4 := log3 ++ [Event.LinkSetUp interfaceName r4.1 r4.2]
          match r4.2 with
          | some err =>
            (Except.error (Error.errorfErr
              ("failed to set the link up for interface %s while plumbing network %s, " ++
                "err: %v")
              [FmtArg.str interfaceName, FmtArg.str netName] err), log4)
          | none =>
            let mplink := r4.1
            -- STEP4
            let r5 := addManagementPortIPs env udng interfaceName mplink subnets log4
            match r5.1 with
            | some err => (Except.error err, r5.2)
            | none =>
              -- STEP5
              let err := env.UpdateNodeManagementPortMACAddressesWithRetry r5.2 udng.node
                (some macAddress) netName
              let log6 := r5.2 ++ [Event.UpdateNodeManagementPortMACAddressesWithRetry
                udng.node (some macAddress) netName err]
              match err with
              | some err =>
                (Except.error (Error.errorfErr
                  ("unable to update mac address annotation for node %s, for network %s, " ++
                    "err: %v")
                  [FmtArg.str udng.node.Name, FmtArg.str netName] err), log6)
              | none => (Except.ok mplink, log6)

/-- The arguments of the `del-port` command of `deleteUDNManagementPort`. -/
def delPortArgs (env : Env) (udng : UserDefinedNetworkGateway) : List String :=
  ["--", "--if-exists", "del-port", "br-int", mgmtInterfaceName env udng]

/-- Method `deleteUDNManagementPort`. -/
def deleteUDNManagementPort (env : Env) (udng : UserDefinedNetworkGateway) (log : Log) :
    Option Error × Log :=
  let netName := udng.netInfo.GetNetworkName
  -- STEP1
  let r1 := env.RunOVSVsctl log (delPortArgs env udng)
  let log1 := log ++ [Event.RunOVSVsctl (delPortArgs env udng) r1.1 r1.2.1 r1.2.2]
  match r1.2.2 with
  | some err =>
    (some (Error.errorfErr
      "failed to delete port from br-int for network %s, stdout: %q, stderr: %q, error: %v"
      [FmtArg.str netName, FmtArg.str r1.1, FmtArg.str r1.2.1] err), log1)
  | none =>
    -- sending nil mac address will delete the network's annotation value
    let err := env.UpdateNodeManagementPortMACAddressesWithRetry log1 udng.node none netName
    let log2 := log1 ++ [Event.UpdateNodeManagementPortMACAddressesWithRetry
      udng.node none netName err]
    match err with
    | some err =>
      (some (Error.errorfErr
        "unable to remove mac address annotation for node %s, for network %s, err: %v"
        [FmtArg.str udng.node.Name, FmtArg.str netName] err), log2)
    | none => (none, log2)

/-- Method `DelNetwork`. -/
def DelNetwork (env : Env) (udng : UserDefinedNetworkGateway) (log : Log) :
    Option Error × Log :=
  let vrfDeviceName := env.GetVRFDeviceNameForUDN udng.networkID
  let err := env.DeleteVRF log vrfDeviceName
  let log1 := log ++ [Event.DeleteVRF vrfDeviceName err]
  match err with
  | some err => (some err, log1)
  | none => deleteUDNManagementPort env udng log1

/-! ## The state kept by OVS and by the Kubernetes API -/

/-- The calls of the STEP4 loop: `LinkAddrExist` and `LinkAddrAdd`. -/
def isLinkAddrEvent : Event → Bool
  | Event.LinkAddrExist _ _ _ _ => true
  | Event.LinkAddrAdd _ _ _ => true
  | _ => false

/-- The addresses for which `LinkAddrExist` was called, in the order of the calls. -/
def checkedAddrs (delta : Log) : List IPNet :=
  delta.filterMap (fun ev =>
    match ev with
    | Event.LinkAddrExist _ ip _ _ => some ip
    | _ => none)

/-- The addresses for which `LinkAddrExist` answered "absent" without error. -/
def absentAddrs (delta : Log) : List IPNet :=
  delta.filterMap (fun ev =>
    match ev with
    | Event.LinkAddrExist _ ip false none => some ip
    | _ => none)

/-- The addresses for which `LinkAddrAdd` was called, in the order of the calls. -/
def addedAddrs (delta : Log) : List IPNet :=
  delta.filterMap (fun ev =>
    match ev with
    | Event.LinkAddrAdd _ ip _ => some ip
    | _ => none)

/-- In the words of the spec, "a local subnet whose IP family is globally
enabled": the subnet is an IPv4 CIDR and IPv4 mode is on, or it is an IPv6 CIDR
and IPv6 mode is on. -/
def subnetFamilyEnabled (env : Env) (subnet : IPNet) : Prop :=
  (env.IsIPv4CIDR subnet = true ∧ env.IPv4Mode = true) ∨
    (env.IsIPv6CIDR subnet = true ∧ env.IPv6Mode = true)

instance (env : Env) (subnet : IPNet) : Decidable (subnetFamilyEnabled env subnet) :=
  inferInstanceAs (Decidable ((env.IsIPv4CIDR subnet = true ∧ env.IPv4Mode = true) ∨
    (env.IsIPv6CIDR subnet = true ∧ env.IPv6Mode = true)))

/-- The management addresses of the subnets whose family is globally enabled, in
the order of the subnets. -/
def enabledAddrs (env : Env) (subnets : List IPNet) : List IPNet :=
  (subnets.filter (fun s => decide (subnetFamilyEnabled env s))).map
    env.GetNodeManagementIfAddr

/-- What the calls `delta` of the STEP4 loop over `subnets` look like: they are
all `LinkAddrExist` or `LinkAddrAdd` calls, an address is added exactly when it
was checked and found absent, and every check is on the management link for the
management address of a subnet of an enabled family. -/
def AddrCallsOK (env : Env) (mplink : Link) (subnets : List IPNet) (delta : Log) : Prop :=
  (∀ ev ∈ delta, isLinkAddrEvent ev = true) ∧
  (∀ l ip, (∃ r, Event.LinkAddrAdd l ip r ∈ delta) ↔
    Event.LinkAddrExist l ip false none ∈ delta) ∧
  (∀ l ip f r, Event.LinkAddrExist l ip f r ∈ delta →
    l = mplink ∧ ∃ s ∈ subnets, subnetFamilyEnabled env s ∧
      ip = env.GetNodeManagementIfAddr s)

/-- A layer 3 network named `blue`. -/
def exampleNetInfo : NetInfo :=
  { GetNetworkName := "blue"
    GetNetworkScopedPatchPortName := fun bridge node => "patch-" ++ bridge ++ "_blue_" ++ node
    GetNetworkScopedK8sMgmtIntfName := fun node => "k8s-blue-" ++ node
    TopologyType := Layer3Topology
    Subnets := []
    MTU := 1400 }

/-- A bridge whose cache holds no network yet. -/
def exampleEmptyBridge : bridgeConfiguration :=
  { nodeName := "node1", bridgeName := "breth0", uplinkName := "eth0", ofPortPhys := "1",
    netConfig := [] }

/-- The cache after network `blue` with network ID 5 (mark 8) has been added. -/
def exampleBridge : bridgeConfiguration :=
  addNetworkBridgeConfig exampleEmptyBridge exampleNetInfo 8 none none

/-- The entry that `addNetworkBridgeConfig` made for network `blue`. -/
def exampleEntry : bridgeUDNConfiguration :=
  { patchPort := "patch-breth0_blue_node1", ofPortPatch := "", masqCTMark := "0x8",
    v4MasqIP := none, v6MasqIP := none }

/-- A node named `node1`. -/
def exampleNode : Node := { Name := "node1", Annotations := [] }

/-- The two local subnets of network `blue`: `10.128.0.0/24` and `fd00::/64`. -/
def exampleSubnets : List IPNet :=
  [{ IP := [10, 128, 0, 0], Mask := [255, 255, 255, 0] },
   { IP := [253, 0, 0, 0, 0, 0, 0, 0, 0, 0, 0, 0, 0, 0, 0, 0],
     Mask := [255, 255, 255, 255, 255, 255, 255, 255, 0, 0, 0, 0, 0, 0, 0, 0] }]

/-- An environment with only IPv4 enabled in which every collaborator succeeds
and no management address is on the link yet. -/
def exampleEnv : Env :=
  { IPv4Mode := true
    IPv6Mode := false
    GetVRFDeviceNameForUDN := fun id => "mp" ++ toString id ++ "-udn-vrf"
    GetNetworkScopedK8sMgmtHostIntfName := fun id => "ovn-k8s-mp" ++ toString id
    CalculateRouteTableID := fun index => index + 1000
    GetNodeManagementIfAddr := fun subnet => subnet
    IsIPv4CIDR := fun subnet => subnet.IP.length == 4
    IsIPv6CIDR := fun subnet => subnet.IP.length == 16
    ParseNodeHostSubnetAnnotation := fun _ _ => (exampleSubnets, none)
    AllocateV4MasqueradeIPs := fun _ =>
      ({ GatewayRouter := some { IP := [169, 254, 0, 11], Mask := [255, 255, 128, 0] }
         ManagementPort := some { IP := [169, 254, 0, 12], Mask := [255, 255, 128, 0] } }, none)
    AllocateV6MasqueradeIPs := fun _ => ({ GatewayRouter := none, ManagementPort := none }, none)
    HardwareAddrString := fun _ => "0a:58:0a:80:00:02"
    RunOVSVsctl := fun _ _ => ("", "", none)
    GetOVSOfPort := fun _ _ => ("7", "", none)
    GetOVSPortMACAddress := fun _ _ => ([10, 88, 10, 128, 0, 2], none)
    LinkSetUp := fun _ name => ({ Index := 12, Name := name }, none)
    LinkAddrExist := fun _ _ _ => (false, none)
    LinkAddrAdd := fun _ _ _ => none
    UpdateNodeManagementPortMACAddressesWithRetry := fun _ _ _ _ => none
    AddVRF := fun _ _ _ _ => none
    DeleteVRF := fun _ _ => none }

/-- The gateway that `NewUserDefinedNetworkGateway` builds for network `blue` with
network ID 5 on the example environment. -/
def exampleGateway : UserDefinedNetworkGateway :=
  { netInfo := exampleNetInfo
    networkID := 5
    node := exampleNode
    masqCTMark := 8
    v4MasqIP := some { IP := [169, 254, 0, 11], Mask := [255, 255, 128, 0] }
    v6MasqIP := none }

/-- The error with which the failing collaborators of the examples answer. -/
def exampleError : Error := Error.collaborator "exit status 1"

/-- The example environment with a VRF manager that fails to delete. -/
def exampleEnvVRFFails : Env :=
  { exampleEnv with DeleteVRF := fun _ _ => some exampleError }

/-- The example environment with an OVS in which every `ovs-vsctl` command fails. -/
def exampleEnvOVSFails : Env :=
  { exampleEnv with RunOVSVsctl := fun _ _ => ("", "ovs-vsctl: no bridge", some exampleError) }

/-! ## Lemmas on words and on `%x` -/

theorem hexCharValue_hexDigitChar (d : Nat) (h : d < 16) : hexCharValue (hexDigitChar d) = d := by
  interval_cases d <;> rfl

theorem isLowerHexDigit_hexDigitChar (d : Nat) (h : d < 16) : isLowerHexDigit (hexDigitChar d) := by
  unfold isLowerHexDigit
  interval_cases d <;> decide

theorem hexDigitChar_ne_zero (d : Nat) (h : d < 16) (h0 : d ≠ 0) : hexDigitChar d ≠ '0' := by
  interval_cases d <;> first | exact absurd rfl h0 | decide

theorem hexValue_append (xs ys : List Char) :
    hexValue (xs ++ ys) = hexValue xs * 16 ^ ys.length + hexValue ys := by
  induction ys using List.reverseRecOn generalizing xs with
  | nil => simp [hexValue]
  | append_singleton ys c ih =>
    rw [← List.append_assoc]
    have h1 : ∀ zs : List Char, hexValue (zs ++ [c]) = hexValue zs * 16 + hexCharValue c := by
      intro zs; simp [hexValue, List.foldl_append]
    rw [h1, h1, ih]
    simp [pow_succ]; ring

theorem hexDigitsAux_acc (fuel u : Nat) (acc : List Char) :
    hexDigitsAux fuel u acc = hexDigitsAux fuel u [] ++ acc := by
  induction fuel generalizing u acc with
  | zero => simp [hexDigitsAux]
  | succ n ih =>
    unfold hexDigitsAux
    split
    · rw [ih (u / 16) (hexDigitChar (u % 16) :: acc), ih (u / 16) [hexDigitChar (u % 16)]]
      simp
    · simp

theorem hexValue_hexDigitsAux (fuel u : Nat) (h : u < 16 ^ fuel) :
    hexValue (hexDigitsAux fuel u []) = u := by
  induction fuel generalizing u with
  | zero => simp at h; subst h; simp [hexDigitsAux, hexValue]
  | succ n ih =>
    unfold hexDigitsAux
    split
    · rw [hexDigitsAux_acc, hexValue_append, ih (u / 16) (by rw [pow_succ] at h; omega)]
      simp [hexValue, hexCharValue_hexDigitChar (u % 16) (by omega)]
      omega
    · simp [hexValue, hexCharValue_hexDigitChar u (by omega)]

theorem hexDigitsAux_all (fuel u : Nat) :
    ∀ c ∈ hexDigitsAux fuel u [], isLowerHexDigit c := by
  induction fuel generalizing u with
  | zero => simp [hexDigitsAux]
  | succ n ih =>
    unfold hexDigitsAux
    split
    · rw [hexDigitsAux_acc]
      intro c hc
      rcases List.mem_append.1 hc with h | h
      · exact ih _ c h
      · simp at h; subst h; exact isLowerHexDigit_hexDigitChar _ (by omega)
    · intro c hc; simp at hc; subst hc; exact isLowerHexDigit_hexDigitChar _ (by omega)

theorem hexDigitsAux_head (fuel u : Nat) (h0 : u ≠ 0) (h : u < 16 ^ fuel) :
    ∃ d rest, hexDigitsAux fuel u [] = hexDigitChar d :: rest ∧ d ≠ 0 ∧ d < 16 := by
  induction fuel generalizing u with
  | zero => simp at h; exact absurd h h0
  | succ n ih =>
    unfold hexDigitsAux
    split
    · rw [hexDigitsAux_acc]
      obtain ⟨d, rest, he, hd⟩ := ih (u / 16) (by omega) (by rw [pow_succ] at h; omega)
      exact ⟨d, rest ++ [hexDigitChar (u % 16)], by rw [he]; simp, hd⟩
    · exact ⟨u, [], rfl, h0, by omega⟩

theorem uintOfInt_nonneg (n : Int) (h0 : 0 ≤ n) (h : n < 2 ^ 63) : (uintOfInt n : Int) = n := by
  unfold uintOfInt uintModulus wordBits
  rw [Int.toNat_of_nonneg (Int.emod_nonneg _ (by norm_num))]
  exact Int.emod_eq_of_lt h0 (by norm_num; omega)

theorem sprintf0x_data (u : Nat) : (sprintf0x u).data = '0' :: 'x' :: hexDigits u := by
  simp [sprintf0x, String.data_append]

theorem uintAdd_base_nonneg (n : Int) (h0 : 0 ≤ n) (hr : intInRange n) :
    ((uintAdd 3 (uintOfInt n) : Nat) : Int) = 3 + n := by
  have h := uintOfInt_nonneg n h0 hr.2
  unfold uintAdd uintModulus wordBits
  have : uintOfInt n < 2 ^ 63 := by
    have := hr.2
    omega
  omega

theorem uintOfInt_lt (n : Int) : uintOfInt n < 2 ^ 64 := by
  unfold uintOfInt uintModulus wordBits
  have := Int.emod_lt_of_pos n (show (0 : Int) < ((2 ^ 64 : Nat) : Int) by norm_num)
  have := Int.emod_nonneg n (show ((2 ^ 64 : Nat) : Int) ≠ 0 by norm_num)
  omega

theorem uintOfInt_injOn (n1 n2 : Int) (h1 : intInRange n1) (h2 : intInRange n2)
    (h : uintOfInt n1 = uintOfInt n2) : n1 = n2 := by
  unfold uintOfInt uintModulus wordBits at h
  unfold intInRange at h1 h2
  have e1 := Int.emod_nonneg n1 (show ((2 ^ 64 : Nat) : Int) ≠ 0 by norm_num)
  have e2 := Int.emod_nonneg n2 (show ((2 ^ 64 : Nat) : Int) ≠ 0 by norm_num)
  have : n1 % ((2 ^ 64 : Nat) : Int) = n2 % ((2 ^ 64 : Nat) : Int) := by
    have := congrArg (fun x : Nat => (x : Int)) h
    simp only [Int.toNat_of_nonneg e1, Int.toNat_of_nonneg e2] at this
    exact this
  omega

theorem uintAdd_base_inj (a b : Nat) (ha : a < 2 ^ 64) (hb : b < 2 ^ 64)
    (h : uintAdd 3 a = uintAdd 3 b) : a = b := by
  unfold uintAdd uintModulus wordBits at h
  omega

theorem uintAdd_lt (a b : Nat) : uintAdd a b < 2 ^ 64 := by
  unfold uintAdd uintModulus wordBits
  exact Nat.mod_lt _ (by norm_num)

theorem sprintf0x_inj (u v : Nat) (hu : u < 2 ^ 64) (hv : v < 2 ^ 64)
    (h : sprintf0x u = sprintf0x v) : u = v := by
  have hd := congrArg String.data h
  rw [sprintf0x_data, sprintf0x_data] at hd
  have hd2 : hexDigits u = hexDigits v := by simpa using hd
  have e1 := hexValue_hexDigitsAux 16 u (by norm_num; omega)
  have e2 := hexValue_hexDigitsAux 16 v (by norm_num; omega)
  unfold hexDigits at hd2
  rw [hd2] at e1
  omega

/-! ## Lemmas on maps -/

theorem mapLookup_mapStore_self {β : Type} (m : List (String × β)) (k : String) (v : β) :
    mapLookup (mapStore m k v) k = some v := by
  induction m with
  | nil => simp [mapStore, mapLookup]
  | cons e rest ih =>
    obtain ⟨k0, w⟩ := e
    by_cases h : k0 = k
    · simp [mapStore, mapLookup, h]
    · simp [mapStore, mapLookup, h, ih]

theorem mapLookup_mapStore_other {β : Type} (m : List (String × β)) (k k1 : String) (v : β)
    (hne : k1 ≠ k) : mapLookup (mapStore m k v) k1 = mapLookup m k1 := by
  induction m with
  | nil => simp [mapStore, mapLookup, Ne.symm hne]
  | cons e rest ih =>
    obtain ⟨k0, w⟩ := e
    by_cases h : k0 = k
    · subst h
      simp [mapStore, mapLookup, Ne.symm hne]
    · by_cases h1 : k0 = k1
      · subst h1
        simp [mapStore, mapLookup, h]
      · simp [mapStore, mapLookup, h, h1, ih]

theorem mapStore_of_mapLookup {β : Type} (m : List (String × β)) (k : String) (v : β)
    (h : mapLookup m k = some v) : mapStore m k v = m := by
  induction m with
  | nil => simp [mapLookup] at h
  | cons e rest ih =>
    obtain ⟨k0, w⟩ := e
    by_cases hk : k0 = k
    · simp [mapLookup, hk] at h
      simp [mapStore, hk, h]
    · simp [mapLookup, hk] at h
      simp [mapStore, hk, ih h]

theorem mapStore_length_of_mapLookup {β : Type} (m : List (String × β)) (k : String) (v w : β)
    (h : mapLookup m k = some v) : (mapStore m k w).length = m.length := by
  induction m with
  | nil => simp [mapLookup] at h
  | cons e rest ih =>
    obtain ⟨k0, u⟩ := e
    by_cases hk : k0 = k
    · simp [mapStore, hk]
    · simp [mapLookup, hk] at h
      simp [mapStore, hk, ih h]

theorem mapStore_keys_of_mapLookup {β : Type} (m : List (String × β)) (k : String) (v w : β)
    (h : mapLookup m k = some v) : (mapStore m k w).map Prod.fst = m.map Prod.fst := by
  induction m with
  | nil => simp [mapLookup] at h
  | cons e rest ih =>
    obtain ⟨k0, u⟩ := e
    by_cases hk : k0 = k
    · simp [mapStore, hk]
    · simp [mapLookup, hk] at h
      simp [mapStore, hk, ih h]

theorem mapCount_eq_zero_of_mapLookup {β : Type} (m : List (String × β)) (k : String)
    (h : mapLookup m k = none) : mapCount m k = 0 := by
  induction m with
  | nil => simp [mapCount]
  | cons e rest ih =>
    obtain ⟨k0, w⟩ := e
    by_cases hk : k0 = k
    · simp [mapLookup, hk] at h
    · simp [mapLookup, hk] at h
      have := ih h
      simp only [mapCount] at this ⊢
      simp [List.countP_cons, hk, this]

theorem mapCount_mapStore_absent {β : Type} (m : List (String × β)) (k : String) (v : β)
    (h : mapLookup m k = none) : mapCount (mapStore m k v) k = 1 := by
  induction m with
  | nil => simp [mapCount, mapStore]
  | cons e rest ih =>
    obtain ⟨k0, w⟩ := e
    by_cases hk : k0 = k
    · simp [mapLookup, hk] at h
    · simp [mapLookup, hk] at h
      have := ih h
      simp only [mapCount] at this ⊢
      simp [mapStore, List.countP_cons, hk, this]

theorem mapLookup_eq_none_of_not_mem {β : Type} (m : List (String × β)) (k : String)
    (h : k ∉ m.map Prod.fst) : mapLookup m k = none := by
  induction m with
  | nil => simp [mapLookup]
  | cons e rest ih =>
    obtain ⟨k0, w⟩ := e
    simp only [List.map_cons, List.mem_cons, not_or] at h
    simp [mapLookup, Ne.symm h.1, ih h.2]

theorem mapCount_of_mapLookup_some {β : Type} (m : List (String × β)) (k : String) (v : β)
    (hwf : mapWF m) (h : mapLookup m k = some v) : mapCount m k = 1 := by
  induction m with
  | nil => simp [mapLookup] at h
  | cons e rest ih =>
    obtain ⟨k0, w⟩ := e
    unfold mapWF at hwf
    simp only [List.map_cons, List.nodup_cons] at hwf
    by_cases hk : k0 = k
    · subst hk
      have h0 := mapCount_eq_zero_of_mapLookup rest k0 (mapLookup_eq_none_of_not_mem rest k0 hwf.1)
      simp only [mapCount] at h0 ⊢
      simp [List.countP_cons, h0]
    · simp [mapLookup, hk] at h
      have := ih hwf.2 h
      simp only [mapCount] at this ⊢
      simp [List.countP_cons, hk, this]

theorem mapWF_mapStore {β : Type} (m : List (String × β)) (k : String) (v : β)
    (hwf : mapWF m) : mapWF (mapStore m k v) := by
  induction m with
  | nil => simp [mapWF, mapStore]
  | cons e rest ih =>
    obtain ⟨k0, w⟩ := e
    unfold mapWF at hwf ⊢
    simp only [List.map_cons, List.nodup_cons] at hwf
    by_cases hk : k0 = k
    · subst hk
      simp only [mapStore, if_true, List.map_cons, List.nodup_cons]
      exact hwf
    · simp only [mapStore, hk, if_false, List.map_cons, List.nodup_cons]
      refine ⟨?_, ih hwf.2⟩
      intro hmem
      cases hl : mapLookup rest k with
      | none =>
        have hmem2 : k0 ∈ (rest ++ [(k, v)]).map Prod.fst := by
          have : mapStore rest k v = rest ++ [(k, v)] := by
            clear ih hwf hmem
            induction rest with
            | nil => rfl
            | cons e2 r2 ih2 =>
              obtain ⟨k2, w2⟩ := e2
              by_cases h2 : k2 = k
              · simp [mapLookup, h2] at hl
              · simp [mapLookup, h2] at hl
                simp [mapStore, h2, ih2 hl]
          rw [this] at hmem
          exact hmem
        simp only [List.map_append, List.mem_append, List.map_cons, List.map_nil,
          List.mem_singleton] at hmem2
        rcases hmem2 with h1 | h1
        · exact hwf.1 h1
        · exact hk h1
      | some u =>
        rw [mapStore_keys_of_mapLookup rest k u v hl] at hmem
        exact hwf.1 hmem

/-! ## Lemmas on the cache loops -/

theorem foldl_append_snd (m : List (String × bridgeUDNConfiguration))
    (init : List bridgeUDNConfiguration) :
    m.foldl (fun acc e => acc ++ [e.2]) init = init ++ m.map Prod.snd := by
  induction m generalizing init with
  | nil => simp
  | cons e rest ih => simp [ih]

theorem getBridgePortConfigurations_eq (b : bridgeConfiguration) :
    (getBridgePortConfigurations b).1 =
      List.replicate b.netConfig.length bridgeUDNConfiguration.zero ++
        b.netConfig.map Prod.snd := by
  simp [getBridgePortConfigurations, foldl_append_snd]

theorem foldl_patched (m : List (String × bridgeUDNConfiguration))
    (init : List bridgeUDNConfiguration) :
    m.foldl (fun result e => if e.2.ofPortPatch = "" then result else result ++ [e.2]) init =
      init ++ (m.filter (fun e => decide (e.2.ofPortPatch ≠ ""))).map Prod.snd := by
  induction m generalizing init with
  | nil => simp
  | cons e rest ih =>
    by_cases h : e.2.ofPortPatch = ""
    · simp [h, ih]
    · simp [h, ih]

theorem NewUserDefinedNetworkGateway_masqCTMark (env : Env) (netInfo : NetInfo) (n : Int)
    (node : Node) (g : UserDefinedNetworkGateway)
    (h : NewUserDefinedNetworkGateway env netInfo n node = Except.ok g) :
    g.masqCTMark = uintAdd ctMarkUDNBase (uintOfInt n) := by
  unfold NewUserDefinedNetworkGateway at h
  simp only at h
  split at h
  · exact absurd h (by simp)
  · split at h
    · exact absurd h (by simp)
    · injection h with h
      rw [← h]

theorem NewUserDefinedNetworkGateway_ok (env : Env) (netInfo : NetInfo) (n : Int) (node : Node)
    (h4 : env.IPv4Mode = true → (env.AllocateV4MasqueradeIPs n).2 = none)
    (h6 : env.IPv6Mode = true → (env.AllocateV6MasqueradeIPs n).2 = none) :
    ∃ g, NewUserDefinedNetworkGateway env netInfo n node = Except.ok g := by
  unfold NewUserDefinedNetworkGateway
  by_cases m4 : env.IPv4Mode = true <;> by_cases m6 : env.IPv6Mode = true <;>
    simp [m4, m6, h4, h6]

theorem addNetworkBridgeConfig_of_absent (b : bridgeConfiguration) (n : NetInfo) (m : Nat)
    (x y : Option IPNet) (h : mapLookup b.netConfig n.GetNetworkName = none) :
    addNetworkBridgeConfig b n m x y =
      { nodeName := b.nodeName
        bridgeName := b.bridgeName
        uplinkName := b.uplinkName
        ofPortPhys := b.ofPortPhys
        netConfig := mapStore b.netConfig n.GetNetworkName
          ({ patchPort := n.GetNetworkScopedPatchPortName b.bridgeName b.nodeName
             ofPortPatch := ""
             masqCTMark := sprintf0x m
             v4MasqIP := x
             v6MasqIP := y } : bridgeUDNConfiguration) } := by
  unfold addNetworkBridgeConfig
  simp only [h]

theorem addNetworkBridgeConfig_of_present (b : bridgeConfiguration) (n : NetInfo) (m : Nat)
    (x y : Option IPNet) (h : mapLookup b.netConfig n.GetNetworkName ≠ none) :
    addNetworkBridgeConfig b n m x y = b := by
  cases hl : mapLookup b.netConfig n.GetNetworkName with
  | none => exact absurd hl h
  | some v =>
    unfold addNetworkBridgeConfig
    simp only [hl]

theorem mapWF_mapDelete {β : Type} (m : List (String × β)) (k : String) (hwf : mapWF m) :
    mapWF (mapDelete m k) := by
  unfold mapWF mapDelete at *
  exact (List.Nodup.sublist (List.Sublist.map _ (List.filter_sublist _)) hwf)

/-- The cache operations keep every key at most once in the cache. -/
theorem mapWF_preserved (env : Env) (b : bridgeConfiguration) (nInfo : NetInfo) (mark : Nat)
    (v4 v6 : Option IPNet) (netName : String) (log : Log) (hwf : mapWF b.netConfig) :
    mapWF (addNetworkBridgeConfig b nInfo mark v4 v6).netConfig ∧
    mapWF (delNetworkBridgeConfig b nInfo).netConfig ∧
    mapWF (setBridgeNetworkOfPorts env b netName log).2.1.netConfig := by
  refine ⟨?_, mapWF_mapDelete _ _ hwf, ?_⟩
  · cases hl : mapLookup b.netConfig nInfo.GetNetworkName with
    | none =>
      rw [addNetworkBridgeConfig_of_absent b nInfo mark v4 v6 hl]
      exact mapWF_mapStore _ _ _ hwf
    | some c =>
      rw [addNetworkBridgeConfig_of_present b nInfo mark v4 v6 (by simp [hl])]
      exact hwf
  · unfold setBridgeNetworkOfPorts
    cases hl : mapLookup b.netConfig netName with
    | none => exact hwf
    | some c => exact mapWF_mapStore _ _ _ hwf

/-! ## The claims on the bridge configuration cache and the conntrack mark -/

/-- C1: on the cache that holds the single network `blue`, the list returned by
`getBridgePortConfigurations` has two elements, not one: the zero value that
`make` put there, which is no cached entry, followed by the copy of the entry. -/
theorem getBridgePortConfigurations_single_entry :
    exampleBridge.netConfig = [("blue", exampleEntry)] ∧
    (getBridgePortConfigurations exampleBridge).1 =
      [bridgeUDNConfiguration.zero, exampleEntry] ∧
    (getBridgePortConfigurations exampleBridge).1.length ≠ exampleBridge.netConfig.length ∧
    bridgeUDNConfiguration.zero ∉ exampleBridge.netConfig.map Prod.snd := by
  decide

/-- C2: adding a network whose name is already in the cache leaves the whole cache
unchanged; hence after two adds of one name (whatever the mark and masquerade
addresses of the second) the cache is the one the first add left, it holds exactly
one entry for the name, and when the name was absent at first that entry is the
one built from the arguments of the first add. -/
theorem addNetworkBridgeConfig_twice (b : bridgeConfiguration) (n1 n2 : NetInfo)
    (mark1 mark2 : Nat) (v4a v6a v4b v6b : Option IPNet)
    (hwf : mapWF b.netConfig) (hname : n2.GetNetworkName = n1.GetNetworkName) :
    addNetworkBridgeConfig (addNetworkBridgeConfig b n1 mark1 v4a v6a) n2 mark2 v4b v6b =
      addNetworkBridgeConfig b n1 mark1 v4a v6a ∧
    mapCount (addNetworkBridgeConfig (addNetworkBridgeConfig b n1 mark1 v4a v6a)
      n2 mark2 v4b v6b).netConfig n1.GetNetworkName = 1 ∧
    (mapLookup b.netConfig n1.GetNetworkName = none →
      mapLookup (addNetworkBridgeConfig (addNetworkBridgeConfig b n1 mark1 v4a v6a)
        n2 mark2 v4b v6b).netConfig n1.GetNetworkName =
        some { patchPort := n1.GetNetworkScopedPatchPortName b.bridgeName b.nodeName
               ofPortPatch := ""
               masqCTMark := sprintf0x mark1
               v4MasqIP := v4a
               v6MasqIP := v6a }) ∧
    (mapLookup b.netConfig n2.GetNetworkName ≠ none →
      addNetworkBridgeConfig b n2 mark2 v4b v6b = b) := by
  have hfirst : mapLookup (addNetworkBridgeConfig b n1 mark1 v4a v6a).netConfig
      n1.GetNetworkName ≠ none := by
    cases hl : mapLookup b.netConfig n1.GetNetworkName with
    | none =>
      rw [addNetworkBridgeConfig_of_absent b n1 mark1 v4a v6a hl]
      simp [mapLookup_mapStore_self]
    | some v =>
      rw [addNetworkBridgeConfig_of_present b n1 mark1 v4a v6a (by simp [hl])]
      simp [hl]
  have hsecond := addNetworkBridgeConfig_of_present
    (addNetworkBridgeConfig b n1 mark1 v4a v6a) n2 mark2 v4b v6b
    (by rw [hname]; exact hfirst)
  refine ⟨hsecond, ?_, ?_, addNetworkBridgeConfig_of_present b n2 mark2 v4b v6b⟩
  · rw [hsecond]
    cases hl : mapLookup b.netConfig n1.GetNetworkName with
    | none =>
      rw [addNetworkBridgeConfig_of_absent b n1 mark1 v4a v6a hl]
      exact mapCount_mapStore_absent _ _ _ hl
    | some v =>
      rw [addNetworkBridgeConfig_of_present b n1 mark1 v4a v6a (by simp [hl])]
      exact mapCount_of_mapLookup_some _ _ v hwf hl
  · intro hl
    rw [hsecond, addNetworkBridgeConfig_of_absent b n1 mark1 v4a v6a hl]
    exact mapLookup_mapStore_self _ _ _

/-- Witness of C2: network `blue` is added twice to the empty cache, the second
time with another mark and a masquerade address. -/
theorem addNetworkBridgeConfig_twice_witness :
    addNetworkBridgeConfig (addNetworkBridgeConfig exampleEmptyBridge exampleNetInfo 8 none none)
        exampleNetInfo 9 (some { IP := [169, 254, 0, 11], Mask := [255, 255, 128, 0] }) none =
      addNetworkBridgeConfig exampleEmptyBridge exampleNetInfo 8 none none ∧
    (addNetworkBridgeConfig (addNetworkBridgeConfig exampleEmptyBridge exampleNetInfo 8 none none)
        exampleNetInfo 9 (some { IP := [169, 254, 0, 11], Mask := [255, 255, 128, 0] })
        none).netConfig = [("blue", exampleEntry)] :=
  ⟨(addNetworkBridgeConfig_twice exampleEmptyBridge exampleNetInfo exampleNetInfo 8 9 none none
      (some { IP := [169, 254, 0, 11], Mask := [255, 255, 128, 0] }) none
      (by simp [mapWF, exampleEmptyBridge]) rfl).1, by decide⟩

/-- C3: for a network ID `n ≥ 0` every gateway that `NewUserDefinedNetworkGateway`
returns carries the mark `3 + n`, a gateway is returned whenever the masquerade
allocations of the enabled families succeed, and the string that
`addNetworkBridgeConfig` stores for the mark is `0x` followed by lowercase
hexadecimal digits, the first of them not `0`, that denote `3 + n`; for `n = 5`
the string is `0x8`. -/
theorem masqCTMark_of_networkID (env : Env) (netInfo : NetInfo) (n : Int) (node : Node)
    (h0 : 0 ≤ n) (hr : intInRange n) :
    ((env.IPv4Mode = true → (env.AllocateV4MasqueradeIPs n).2 = none) →
      (env.IPv6Mode = true → (env.AllocateV6MasqueradeIPs n).2 = none) →
      ∃ g, NewUserDefinedNetworkGateway env netInfo n node = Except.ok g) ∧
    (∀ g, NewUserDefinedNetworkGateway env netInfo n node = Except.ok g →
      (g.masqCTMark : Int) = 3 + n ∧
      ∀ (b : bridgeConfiguration) (nInfo : NetInfo),
        mapLookup b.netConfig nInfo.GetNetworkName = none →
        ∃ cfg ds,
          mapLookup (addNetworkBridgeConfig b nInfo g.masqCTMark g.v4MasqIP
            g.v6MasqIP).netConfig nInfo.GetNetworkName = some cfg ∧
          cfg.masqCTMark = "0x" ++ String.mk ds ∧
          (∀ c ∈ ds, isLowerHexDigit c) ∧
          ds.head? ≠ some '0' ∧
          (hexValue ds : Int) = 3 + n ∧
          (n = 5 → cfg.masqCTMark = "0x8")) := by
  refine ⟨NewUserDefinedNetworkGateway_ok env netInfo n node, ?_⟩
  intro g hg
  have hm := NewUserDefinedNetworkGateway_masqCTMark env netInfo n node g hg
  have hval : (g.masqCTMark : Int) = 3 + n := by
    rw [hm]; exact uintAdd_base_nonneg n h0 hr
  refine ⟨hval, ?_⟩
  intro b nInfo habs
  have hlt : g.masqCTMark < 16 ^ 16 := by
    rw [hm]
    have := uintAdd_lt ctMarkUDNBase (uintOfInt n)
    norm_num at this ⊢
    exact this
  have hne : g.masqCTMark ≠ 0 := by omega
  obtain ⟨d, rest, hd, hd0, hd16⟩ := hexDigitsAux_head 16 g.masqCTMark hne hlt
  refine ⟨{ patchPort := nInfo.GetNetworkScopedPatchPortName b.bridgeName b.nodeName
            ofPortPatch := ""
            masqCTMark := sprintf0x g.masqCTMark
            v4MasqIP := g.v4MasqIP
            v6MasqIP := g.v6MasqIP }, hexDigits g.masqCTMark, ?_, rfl, ?_, ?_, ?_, ?_⟩
  · rw [addNetworkBridgeConfig_of_absent b nInfo _ _ _ habs]
    simp only [mapLookup_mapStore_self]
  · exact hexDigitsAux_all 16 g.masqCTMark
  · unfold hexDigits
    rw [hd]
    simp only [List.head?_cons, ne_eq, Option.some.injEq]
    exact hexDigitChar_ne_zero d hd16 hd0
  · unfold hexDigits
    rw [hexValue_hexDigitsAux 16 g.masqCTMark hlt]
    exact hval
  · intro h5
    subst h5
    have h8 : g.masqCTMark = 8 := by omega
    simp only [h8]
    decide

/-- Witness of C3: network ID 5 on the example environment. -/
theorem masqCTMark_of_networkID_witness :
    (0 : Int) ≤ 5 ∧ intInRange 5 ∧
    NewUserDefinedNetworkGateway exampleEnv exampleNetInfo 5 exampleNode =
      Except.ok exampleGateway ∧
    ((exampleGateway.masqCTMark : Int) = 3 + 5 ∧
      ∀ (b : bridgeConfiguration) (nInfo : NetInfo),
        mapLookup b.netConfig nInfo.GetNetworkName = none →
        ∃ cfg ds,
          mapLookup (addNetworkBridgeConfig b nInfo exampleGateway.masqCTMark
            exampleGateway.v4MasqIP exampleGateway.v6MasqIP).netConfig
            nInfo.GetNetworkName = some cfg ∧
          cfg.masqCTMark = "0x" ++ String.mk ds ∧
          (∀ c ∈ ds, isLowerHexDigit c) ∧
          ds.head? ≠ some '0' ∧
          (hexValue ds : Int) = 3 + 5 ∧
          ((5 : Int) = 5 → cfg.masqCTMark = "0x8")) ∧
    mapLookup (addNetworkBridgeConfig exampleEmptyBridge exampleNetInfo
      exampleGateway.masqCTMark exampleGateway.v4MasqIP exampleGateway.v6MasqIP).netConfig
      "blue" =
      some { patchPort := "patch-breth0_blue_node1", ofPortPatch := "", masqCTMark := "0x8",
             v4MasqIP := some { IP := [169, 254, 0, 11], Mask := [255, 255, 128, 0] },
             v6MasqIP := none } :=
  ⟨by decide, by decide, rfl,
    (masqCTMark_of_networkID exampleEnv exampleNetInfo 5 exampleNode (by decide)
      (by decide)).2 exampleGateway rfl, by decide⟩

/-- C4: two different network IDs give different conntrack marks, as `uint`
values and as the strings `0x%x` stored in the cache; so do the gateways built
for them, and `0x%x` is injective on `uint` values. -/
theorem masqCTMark_injective (n1 n2 : Int) (h1 : intInRange n1) (h2 : intInRange n2)
    (hne : n1 ≠ n2) :
    uintAdd ctMarkUDNBase (uintOfInt n1) ≠ uintAdd ctMarkUDNBase (uintOfInt n2) ∧
    sprintf0x (uintAdd ctMarkUDNBase (uintOfInt n1)) ≠
      sprintf0x (uintAdd ctMarkUDNBase (uintOfInt n2)) ∧
    (∀ (env1 env2 : Env) (ni1 ni2 : NetInfo) (node1 node2 : Node)
        (g1 g2 : UserDefinedNetworkGateway),
      NewUserDefinedNetworkGateway env1 ni1 n1 node1 = Except.ok g1 →
      NewUserDefinedNetworkGateway env2 ni2 n2 node2 = Except.ok g2 →
      g1.masqCTMark ≠ g2.masqCTMark ∧ sprintf0x g1.masqCTMark ≠ sprintf0x g2.masqCTMark) ∧
    (∀ u v : Nat, u < uintModulus → v < uintModulus → sprintf0x u = sprintf0x v → u = v) := by
  have hnum : uintAdd ctMarkUDNBase (uintOfInt n1) ≠ uintAdd ctMarkUDNBase (uintOfInt n2) := by
    intro h
    exact hne (uintOfInt_injOn n1 n2 h1 h2
      (uintAdd_base_inj _ _ (uintOfInt_lt n1) (uintOfInt_lt n2) h))
  have hstr : sprintf0x (uintAdd ctMarkUDNBase (uintOfInt n1)) ≠
      sprintf0x (uintAdd ctMarkUDNBase (uintOfInt n2)) := by
    intro h
    exact hnum (sprintf0x_inj _ _ (uintAdd_lt _ _) (uintAdd_lt _ _) h)
  refine ⟨hnum, hstr, ?_, ?_⟩
  · intro env1 env2 ni1 ni2 node1 node2 g1 g2 hg1 hg2
    rw [NewUserDefinedNetworkGateway_masqCTMark env1 ni1 n1 node1 g1 hg1,
      NewUserDefinedNetworkGateway_masqCTMark env2 ni2 n2 node2 g2 hg2]
    exact ⟨hnum, hstr⟩
  · intro u v hu hv h
    exact sprintf0x_inj u v hu hv h

/-- Witness of C4: network IDs 5 and 21 give the marks `0x8` and `0x18`. -/
theorem masqCTMark_injective_witness :
    intInRange 5 ∧ intInRange 21 ∧
    sprintf0x (uintAdd ctMarkUDNBase (uintOfInt 5)) = "0x8" ∧
    sprintf0x (uintAdd ctMarkUDNBase (uintOfInt 21)) = "0x18" ∧
    sprintf0x (uintAdd ctMarkUDNBase (uintOfInt 5)) ≠
      sprintf0x (uintAdd ctMarkUDNBase (uintOfInt 21)) :=
  ⟨by decide, by decide, by decide, by decide,
    (masqCTMark_injective 5 21 (by decide) (by decide) (by decide)).2.1⟩

/-- C5: `patchedNetConfigs` returns, in the order of the cache, the entries whose
`ofPortPatch` is not empty: no returned entry has an empty `ofPortPatch`, every
returned entry is a cached one, and an entry with a non-empty `ofPortPatch`
occurs in the result exactly as often as in the cache. -/
theorem patchedNetConfigs_spec (b : bridgeConfiguration) :
    patchedNetConfigs b =
      (b.netConfig.filter (fun e => decide (e.2.ofPortPatch ≠ ""))).map Prod.snd ∧
    (∀ c ∈ patchedNetConfigs b, c.ofPortPatch ≠ "") ∧
    (∀ c ∈ patchedNetConfigs b, ∃ k, (k, c) ∈ b.netConfig) ∧
    (∀ c : bridgeUDNConfiguration, c.ofPortPatch ≠ "" →
      (patchedNetConfigs b).count c = (b.netConfig.map Prod.snd).count c) := by
  have heq : patchedNetConfigs b =
      (b.netConfig.filter (fun e => decide (e.2.ofPortPatch ≠ ""))).map Prod.snd := by
    unfold patchedNetConfigs
    rw [foldl_patched]
    simp
  refine ⟨heq, ?_, ?_, ?_⟩
  · intro c hc
    rw [heq] at hc
    obtain ⟨e, he, rfl⟩ := List.mem_map.1 hc
    simpa using (List.mem_filter.1 he).2
  · intro c hc
    rw [heq] at hc
    obtain ⟨e, he, rfl⟩ := List.mem_map.1 hc
    exact ⟨e.1, (List.mem_filter.1 he).1⟩
  · intro c hc
    rw [heq]
    generalize b.netConfig = m
    induction m with
    | nil => simp
    | cons e rest ih =>
      by_cases he : e.2.ofPortPatch = ""
      · have hne : e.2 ≠ c := by
          intro h; rw [h] at he; exact hc he
        simpa [List.filter_cons, he, List.count_cons, hne] using ih
      · simpa [List.filter_cons, he, List.count_cons] using ih

/-! ## The claims on the patch port and on teardown -/

/-- C6: `setBridgeNetworkOfPorts` returns an error exactly when the name is absent
from the cache or the ofport query fails. For an absent name no call is made and
the cache is unchanged; for a present name exactly the one query for its patch
port is made; on any error the cache is unchanged; on success the named entry is
the old one with `ofPortPatch` set to the value OVS returned, while every other
name, the list of keys and the other fields of the bridge stay as they were. -/
theorem setBridgeNetworkOfPorts_spec (env : Env) (bridge : bridgeConfiguration)
    (netName : String) (log : Log) :
    ((setBridgeNetworkOfPorts env bridge netName log).1 ≠ none ↔
      (mapLookup bridge.netConfig netName = none ∨
        ∃ c, mapLookup bridge.netConfig netName = some c ∧
          (env.GetOVSOfPort log ["get", "Interface", c.patchPort, "ofport"]).2.2 ≠ none)) ∧
    (mapLookup bridge.netConfig netName = none →
      (setBridgeNetworkOfPorts env bridge netName log).2.2 = log ∧
      (setBridgeNetworkOfPorts env bridge netName log).2.1 = bridge) ∧
    (∀ c, mapLookup bridge.netConfig netName = some c →
      (setBridgeNetworkOfPorts env bridge netName log).2.2 =
        log ++ [Event.GetOVSOfPort ["get", "Interface", c.patchPort, "ofport"]
          (env.GetOVSOfPort log ["get", "Interface", c.patchPort, "ofport"]).1
          (env.GetOVSOfPort log ["get", "Interface", c.patchPort, "ofport"]).2.1
          (env.GetOVSOfPort log ["get", "Interface", c.patchPort, "ofport"]).2.2]) ∧
    ((setBridgeNetworkOfPorts env bridge netName log).1 ≠ none →
      (setBridgeNetworkOfPorts env bridge netName log).2.1 = bridge) ∧
    ((setBridgeNetworkOfPorts env bridge netName log).1 = none →
      ∃ c, mapLookup bridge.netConfig netName = some c ∧
        mapLookup (setBridgeNetworkOfPorts env bridge netName log).2.1.netConfig netName =
          some { c with ofPortPatch :=
            (env.GetOVSOfPort log ["get", "Interface", c.patchPort, "ofport"]).1 } ∧
        (∀ k, k ≠ netName →
          mapLookup (setBridgeNetworkOfPorts env bridge netName log).2.1.netConfig k =
            mapLookup bridge.netConfig k) ∧
        (setBridgeNetworkOfPorts env bridge netName log).2.1.netConfig.map Prod.fst =
          bridge.netConfig.map Prod.fst ∧
        (setBridgeNetworkOfPorts env bridge netName log).2.1.nodeName = bridge.nodeName ∧
        (setBridgeNetworkOfPorts env bridge netName log).2.1.bridgeName = bridge.bridgeName ∧
        (setBridgeNetworkOfPorts env bridge netName log).2.1.uplinkName = bridge.uplinkName ∧
        (setBridgeNetworkOfPorts env bridge netName log).2.1.ofPortPhys = bridge.ofPortPhys) := by
  cases hl : mapLookup bridge.netConfig netName with
  | none =>
    simp [setBridgeNetworkOfPorts, hl]
  | some c =>
    cases hq : (env.GetOVSOfPort log ["get", "Interface", c.patchPort, "ofport"]).2.2 with
    | none =>
      simp [setBridgeNetworkOfPorts, setBridgeNetworkOfPortsInternal, hl, hq,
        mapLookup_mapStore_self, mapStore_keys_of_mapLookup _ _ c _ hl]
      intro k hk
      exact mapLookup_mapStore_other _ _ _ _ hk
    | some e =>
      simp [setBridgeNetworkOfPorts, setBridgeNetworkOfPortsInternal, hl, hq,
        mapStore_of_mapLookup _ _ _ hl]

/-- C7: when `DeleteVRF` fails, `DelNetwork` returns that very error and the only
call it makes is `DeleteVRF` on the VRF device name of the stored network ID: no
`ovs-vsctl` command and no update of the node is issued. -/
theorem DelNetwork_DeleteVRF_fails (env : Env) (udng : UserDefinedNetworkGateway) (log : Log)
    (e : Error) (h : env.DeleteVRF log (env.GetVRFDeviceNameForUDN udng.networkID) = some e) :
    DelNetwork env udng log =
      (some e, log ++ [Event.DeleteVRF (env.GetVRFDeviceNameForUDN udng.networkID) (some e)]) ∧
    (∀ ev ∈ (DelNetwork env udng log).2.drop log.length,
      (∀ args out errOut err, ev ≠ Event.RunOVSVsctl args out errOut err) ∧
      (∀ node mac name err,
        ev ≠ Event.UpdateNodeManagementPortMACAddressesWithRetry node mac name err)) := by
  have hd : DelNetwork env udng log =
      (some e, log ++ [Event.DeleteVRF (env.GetVRFDeviceNameForUDN udng.networkID) (some e)]) := by
    simp [DelNetwork, h]
  refine ⟨hd, ?_⟩
  rw [hd]
  intro ev hev
  simp at hev
  subst hev
  simp

/-- Witness of C7: the example gateway on an environment whose VRF manager fails. -/
theorem DelNetwork_DeleteVRF_fails_witness :
    exampleEnvVRFFails.DeleteVRF []
      (exampleEnvVRFFails.GetVRFDeviceNameForUDN exampleGateway.networkID) = some exampleError ∧
    DelNetwork exampleEnvVRFFails exampleGateway [] =
      (some exampleError, [Event.DeleteVRF "mp5-udn-vrf" (some exampleError)]) :=
  ⟨rfl, (DelNetwork_DeleteVRF_fails exampleEnvVRFFails exampleGateway [] exampleError rfl).1⟩

/-- C8, as stated, fails: when the `del-port` command fails, the only call that
`deleteUDNManagementPort` makes is that command, and the update that would clear
the management MAC of the network on the node is not issued. -/
theorem deleteUDNManagementPort_del_port_fails :
    (exampleEnvOVSFails.RunOVSVsctl [] (delPortArgs exampleEnvOVSFails exampleGateway)).2.2 =
      some exampleError ∧
    (deleteUDNManagementPort exampleEnvOVSFails exampleGateway []).2 =
      [Event.RunOVSVsctl ["--", "--if-exists", "del-port", "br-int", "ovn-k8s-mp5"]
        "" "ovs-vsctl: no bridge" (some exampleError)] ∧
    ¬ ∃ err, Event.UpdateNodeManagementPortMACAddressesWithRetry exampleGateway.node none
      exampleGateway.netInfo.GetNetworkName err ∈
        (deleteUDNManagementPort exampleEnvOVSFails exampleGateway []).2 := by
  have h : (deleteUDNManagementPort exampleEnvOVSFails exampleGateway []).2 =
      [Event.RunOVSVsctl ["--", "--if-exists", "del-port", "br-int", "ovn-k8s-mp5"]
        "" "ovs-vsctl: no bridge" (some exampleError)] := by decide
  refine ⟨rfl, h, ?_⟩
  rw [h]
  simp

/-- C8, amended: `deleteUDNManagementPort` always issues the `del-port` command
first. When it succeeds, the update clearing the management MAC of the network
follows and is the only other call; when it fails, the function returns the
wrapped error at once and makes no other call. So the clearing update is issued
exactly when `del-port` succeeded. -/
theorem deleteUDNManagementPort_steps (env : Env) (udng : UserDefinedNetworkGateway)
    (log : Log) :
    ((env.RunOVSVsctl log (delPortArgs env udng)).2.2 = none →
      (deleteUDNManagementPort env udng log).2 =
        log ++ [Event.RunOVSVsctl (delPortArgs env udng)
            (env.RunOVSVsctl log (delPortArgs env udng)).1
            (env.RunOVSVsctl log (delPortArgs env udng)).2.1 none,
          Event.UpdateNodeManagementPortMACAddressesWithRetry udng.node none
            udng.netInfo.GetNetworkName
            (env.UpdateNodeManagementPortMACAddressesWithRetry
              (log ++ [Event.RunOVSVsctl (delPortArgs env udng)
                (env.RunOVSVsctl log (delPortArgs env udng)).1
                (env.RunOVSVsctl log (delPortArgs env udng)).2.1 none])
              udng.node none udng.netInfo.GetNetworkName)]) ∧
    (∀ e, (env.RunOVSVsctl log (delPortArgs env udng)).2.2 = some e →
      deleteUDNManagementPort env udng log =
        (some (Error.errorfErr
          "failed to delete port from br-int for network %s, stdout: %q, stderr: %q, error: %v"
          [FmtArg.str udng.netInfo.GetNetworkName,
            FmtArg.str (env.RunOVSVsctl log (delPortArgs env udng)).1,
            FmtArg.str (env.RunOVSVsctl log (delPortArgs env udng)).2.1] e),
          log ++ [Event.RunOVSVsctl (delPortArgs env udng)
            (env.RunOVSVsctl log (delPortArgs env udng)).1
            (env.RunOVSVsctl log (delPortArgs env udng)).2.1 (some e)])) ∧
    ((∃ err, Event.UpdateNodeManagementPortMACAddressesWithRetry udng.node none
        udng.netInfo.GetNetworkName err ∈
          (deleteUDNManagementPort env udng log).2.drop log.length) ↔
      (env.RunOVSVsctl log (delPortArgs env udng)).2.2 = none) := by
  cases hq : (env.RunOVSVsctl log (delPortArgs env udng)).2.2 with
  | some e =>
    simp [deleteUDNManagementPort, hq]
  | none =>
    cases hu : env.UpdateNodeManagementPortMACAddressesWithRetry
        (log ++ [Event.RunOVSVsctl (delPortArgs env udng)
          (env.RunOVSVsctl log (delPortArgs env udng)).1
          (env.RunOVSVsctl log (delPortArgs env udng)).2.1 none])
        udng.node none udng.netInfo.GetNetworkName with
    | none => simp [deleteUDNManagementPort, hq, hu]
    | some e => simp [deleteUDNManagementPort, hq, hu]

/-! ## Lemmas on the calls of provisioning -/

theorem familyGuard_true (env : Env) (subnet : IPNet) (h : subnetFamilyEnabled env subnet) :
    (env.IPv6Mode && env.IsIPv6CIDR subnet || env.IPv4Mode && env.IsIPv4CIDR subnet) = true := by
  rcases h with ⟨h1, h2⟩ | ⟨h1, h2⟩ <;> simp [h1, h2]

theorem familyGuard_false (env : Env) (subnet : IPNet) (h : ¬ subnetFamilyEnabled env subnet) :
    (env.IPv6Mode && env.IsIPv6CIDR subnet || env.IPv4Mode && env.IsIPv4CIDR subnet) = false := by
  unfold subnetFamilyEnabled at h
  cases h4 : env.IPv4Mode <;> cases h6 : env.IPv6Mode <;> cases c4 : env.IsIPv4CIDR subnet <;>
    cases c6 : env.IsIPv6CIDR subnet <;> simp [h4, h6, c4, c6] at h ⊢

theorem AddrCallsOK_nil (env : Env) (mplink : Link) (subnets : List IPNet) :
    AddrCallsOK env mplink subnets [] := by
  simp [AddrCallsOK]

theorem AddrCallsOK_skip (env : Env) (mplink : Link) (subnet : IPNet) (rest : List IPNet)
    (delta : Log) (h : AddrCallsOK env mplink rest delta) :
    AddrCallsOK env mplink (subnet :: rest) delta := by
  obtain ⟨h1, h2, h3⟩ := h
  refine ⟨h1, h2, ?_⟩
  intro l ip f r hm
  obtain ⟨hl, s, hs, hen, hip⟩ := h3 l ip f r hm
  exact ⟨hl, s, List.mem_cons_of_mem _ hs, hen, hip⟩

theorem AddrCallsOK_exist (env : Env) (mplink : Link) (subnet : IPNet) (rest : List IPNet)
    (delta : Log) (f : Bool) (r : Option Error) (hen : subnetFamilyEnabled env subnet)
    (hfr : ¬ (f = false ∧ r = none)) (h : AddrCallsOK env mplink rest delta) :
    AddrCallsOK env mplink (subnet :: rest)
      (Event.LinkAddrExist mplink (env.GetNodeManagementIfAddr subnet) f r :: delta) := by
  obtain ⟨h1, h2, h3⟩ := h
  refine ⟨?_, ?_, ?_⟩
  · intro ev hev
    rcases List.mem_cons.1 hev with he | he
    · subst he; rfl
    · exact h1 ev he
  · intro l ip
    constructor
    · rintro ⟨r1, hr1⟩
      rcases List.mem_cons.1 hr1 with he | he
      · exact absurd he (by simp)
      · exact List.mem_cons_of_mem _ ((h2 l ip).1 ⟨r1, he⟩)
    · intro hm
      rcases List.mem_cons.1 hm with he | he
      · injection he with e1 e2 e3 e4
        exact absurd ⟨e3.symm, e4.symm⟩ hfr
      · obtain ⟨r1, hr1⟩ := (h2 l ip).2 he
        exact ⟨r1, List.mem_cons_of_mem _ hr1⟩
  · intro l ip f1 r1 hm
    rcases List.mem_cons.1 hm with he | he
    · injection he with e1 e2 e3 e4
      exact ⟨e1, subnet, List.mem_cons_self _ _, hen, e2⟩
    · obtain ⟨hl, s, hs, hen1, hip⟩ := h3 l ip f1 r1 he
      exact ⟨hl, s, List.mem_cons_of_mem _ hs, hen1, hip⟩

theorem AddrCallsOK_exist_add (env : Env) (mplink : Link) (subnet : IPNet) (rest : List IPNet)
    (delta : Log) (r : Option Error) (hen : subnetFamilyEnabled env subnet)
    (h : AddrCallsOK env mplink rest delta) :
    AddrCallsOK env mplink (subnet :: rest)
      (Event.LinkAddrExist mplink (env.GetNodeManagementIfAddr subnet) false none ::
        Event.LinkAddrAdd mplink (env.GetNodeManagementIfAddr subnet) r :: delta) := by
  obtain ⟨h1, h2, h3⟩ := h
  refine ⟨?_, ?_, ?_⟩
  · intro ev hev
    rcases List.mem_cons.1 hev with he | he
    · subst he; rfl
    · rcases List.mem_cons.1 he with he | he
      · subst he; rfl
      · exact h1 ev he
  · intro l ip
    constructor
    · rintro ⟨r1, hr1⟩
      rcases List.mem_cons.1 hr1 with he | he
      · exact absurd he (by simp)
      · rcases List.mem_cons.1 he with he | he
        · injection he with e1 e2 e3
          rw [e1, e2]
          exact List.mem_cons_self _ _
        · exact List.mem_cons_of_mem _ (List.mem_cons_of_mem _ ((h2 l ip).1 ⟨r1, he⟩))
    · intro hm
      rcases List.mem_cons.1 hm with he | he
      · injection he with e1 e2 e3 e4
        rw [e1, e2]
        exact ⟨r, List.mem_cons_of_mem _ (List.mem_cons_self _ _)⟩
      · rcases List.mem_cons.1 he with he | he
        · exact absurd he (by simp)
        · obtain ⟨r1, hr1⟩ := (h2 l ip).2 he
          exact ⟨r1, List.mem_cons_of_mem _ (List.mem_cons_of_mem _ hr1)⟩
  · intro l ip f1 r1 hm
    rcases List.mem_cons.1 hm with he | he
    · injection he with e1 e2 e3 e4
      exact ⟨e1, subnet, List.mem_cons_self _ _, hen, e2⟩
    · rcases List.mem_cons.1 he with he | he
      · exact absurd he (by simp)
      · obtain ⟨hl, s, hs, hen1, hip⟩ := h3 l ip f1 r1 he
        exact ⟨hl, s, List.mem_cons_of_mem _ hs, hen1, hip⟩

theorem addManagementPortIPs_cons_disabled (env : Env) (udng : UserDefinedNetworkGateway)
    (interfaceName : String) (mplink : Link) (subnet : IPNet) (rest : List IPNet) (log : Log)
    (hen : ¬ subnetFamilyEnabled env subnet) :
    addManagementPortIPs env udng interfaceName mplink (subnet :: rest) log =
      addManagementPortIPs env udng interfaceName mplink rest log := by
  simp [addManagementPortIPs, familyGuard_false env subnet hen]

theorem addManagementPortIPs_cons_exist_err (env : Env) (udng : UserDefinedNetworkGateway)
    (interfaceName : String) (mplink : Link) (subnet : IPNet) (rest : List IPNet) (log : Log)
    (hen : subnetFamilyEnabled env subnet) (e : Error)
    (hr : (env.LinkAddrExist log mplink (env.GetNodeManagementIfAddr subnet)).2 = some e) :
    (addManagementPortIPs env udng interfaceName mplink (subnet :: rest) log).1 ≠ none ∧
    (addManagementPortIPs env udng interfaceName mplink (subnet :: rest) log).2 =
      log ++ [Event.LinkAddrExist mplink (env.GetNodeManagementIfAddr subnet)
        (env.LinkAddrExist log mplink (env.GetNodeManagementIfAddr subnet)).1 (some e)] := by
  simp [addManagementPortIPs, familyGuard_true env subnet hen, hr]

theorem addManagementPortIPs_cons_found (env : Env) (udng : UserDefinedNetworkGateway)
    (interfaceName : String) (mplink : Link) (subnet : IPNet) (rest : List IPNet) (log : Log)
    (hen : subnetFamilyEnabled env subnet)
    (hr : (env.LinkAddrExist log mplink (env.GetNodeManagementIfAddr subnet)).2 = none)
    (hf : (env.LinkAddrExist log mplink (env.GetNodeManagementIfAddr subnet)).1 = true) :
    addManagementPortIPs env udng interfaceName mplink (subnet :: rest) log =
      addManagementPortIPs env udng interfaceName mplink rest
        (log ++ [Event.LinkAddrExist mplink (env.GetNodeManagementIfAddr subnet) true none]) := by
  simp [addManagementPortIPs, familyGuard_true env subnet hen, hr, hf]

theorem addManagementPortIPs_cons_add_err (env : Env) (udng : UserDefinedNetworkGateway)
    (interfaceName : String) (mplink : Link) (subnet : IPNet) (rest : List IPNet) (log : Log)
    (hen : subnetFamilyEnabled env subnet)
    (hr : (env.LinkAddrExist log mplink (env.GetNodeManagementIfAddr subnet)).2 = none)
    (hf : (env.LinkAddrExist log mplink (env.GetNodeManagementIfAddr subnet)).1 = false)
    (e : Error)
    (ha : env.LinkAddrAdd
      (log ++ [Event.LinkAddrExist mplink (env.GetNodeManagementIfAddr subnet) false none])
      mplink (env.GetNodeManagementIfAddr subnet) = some e) :
    (addManagementPortIPs env udng interfaceName mplink (subnet :: rest) log).1 ≠ none ∧
    (addManagementPortIPs env udng interfaceName mplink (subnet :: rest) log).2 =
      log ++ [Event.LinkAddrExist mplink (env.GetNodeManagementIfAddr subnet) false none,
        Event.LinkAddrAdd mplink (env.GetNodeManagementIfAddr subnet) (some e)] := by
  simp [addManagementPortIPs, familyGuard_true env subnet hen, hr, hf, ha]

theorem addManagementPortIPs_cons_added (env : Env) (udng : UserDefinedNetworkGateway)
    (interfaceName : String) (mplink : Link) (subnet : IPNet) (rest : List IPNet) (log : Log)
    (hen : subnetFamilyEnabled env subnet)
    (hr : (env.LinkAddrExist log mplink (env.GetNodeManagementIfAddr subnet)).2 = none)
    (hf : (env.LinkAddrExist log mplink (env.GetNodeManagementIfAddr subnet)).1 = false)
    (ha : env.LinkAddrAdd
      (log ++ [Event.LinkAddrExist mplink (env.GetNodeManagementIfAddr subnet) false none])
      mplink (env.GetNodeManagementIfAddr subnet) = none) :
    addManagementPortIPs env udng interfaceName mplink (subnet :: rest) log =
      addManagementPortIPs env udng interfaceName mplink rest
        (log ++ [Event.LinkAddrExist mplink (env.GetNodeManagementIfAddr subnet) false none,
          Event.LinkAddrAdd mplink (env.GetNodeManagementIfAddr subnet) none]) := by
  simp [addManagementPortIPs, familyGuard_true env subnet hen, hr, hf, ha]

theorem addManagementPortIPs_events (env : Env) (udng : UserDefinedNetworkGateway)
    (interfaceName : String) (mplink : Link) (subnets : List IPNet) (log : Log) :
    ∃ delta, (addManagementPortIPs env udng interfaceName mplink subnets log).2 = log ++ delta ∧
      AddrCallsOK env mplink subnets delta ∧
      ((addManagementPortIPs env udng interfaceName mplink subnets log).1 = none →
        ∀ s ∈ subnets, subnetFamilyEnabled env s →
          ∃ f, Event.LinkAddrExist mplink (env.GetNodeManagementIfAddr s) f none ∈ delta) := by
  induction subnets generalizing log with
  | nil => exact ⟨[], by simp [addManagementPortIPs], AddrCallsOK_nil _ _ _, by simp⟩
  | cons subnet rest ih =>
    by_cases hen : subnetFamilyEnabled env subnet
    · cases hr : (env.LinkAddrExist log mplink (env.GetNodeManagementIfAddr subnet)).2 with
      | some e =>
        obtain ⟨hne, hlog⟩ := addManagementPortIPs_cons_exist_err env udng interfaceName mplink
          subnet rest log hen e hr
        refine ⟨_, hlog, ?_, fun h => absurd h hne⟩
        exact AddrCallsOK_exist env mplink subnet rest [] _ _ hen (by simp)
          (AddrCallsOK_nil _ _ _)
      | none =>
        cases hf : (env.LinkAddrExist log mplink (env.GetNodeManagementIfAddr subnet)).1 with
        | true =>
          rw [addManagementPortIPs_cons_found env udng interfaceName mplink subnet rest log
            hen hr hf]
          obtain ⟨delta, hd, hok, hall⟩ := ih
            (log ++ [Event.LinkAddrExist mplink (env.GetNodeManagementIfAddr subnet) true none])
          refine ⟨Event.LinkAddrExist mplink (env.GetNodeManagementIfAddr subnet) true none ::
            delta, by rw [hd]; simp, ?_, ?_⟩
          · exact AddrCallsOK_exist env mplink subnet rest delta _ _ hen (by simp) hok
          · intro hnone s hs hens
            rcases List.mem_cons.1 hs with he | he
            · subst he
              exact ⟨true, List.mem_cons_self _ _⟩
            · obtain ⟨f, hf1⟩ := hall hnone s he hens
              exact ⟨f, List.mem_cons_of_mem _ hf1⟩
        | false =>
          cases ha : env.LinkAddrAdd
              (log ++ [Event.LinkAddrExist mplink (env.GetNodeManagementIfAddr subnet)
                false none]) mplink (env.GetNodeManagementIfAddr subnet) with
          | some e =>
            obtain ⟨hne, hlog⟩ := addManagementPortIPs_cons_add_err env udng interfaceName
              mplink subnet rest log hen hr hf e ha
            refine ⟨_, hlog, ?_, fun h => absurd h hne⟩
            exact AddrCallsOK_exist_add env mplink subnet rest [] _ hen (AddrCallsOK_nil _ _ _)
          | none =>
            rw [addManagementPortIPs_cons_added env udng interfaceName mplink subnet rest log
              hen hr hf ha]
            obtain ⟨delta, hd, hok, hall⟩ := ih
              (log ++ [Event.LinkAddrExist mplink (env.GetNodeManagementIfAddr subnet)
                false none,
                Event.LinkAddrAdd mplink (env.GetNodeManagementIfAddr subnet) none])
            refine ⟨Event.LinkAddrExist mplink (env.GetNodeManagementIfAddr subnet) false none ::
              Event.LinkAddrAdd mplink (env.GetNodeManagementIfAddr subnet) none :: delta,
              by rw [hd]; simp, ?_, ?_⟩
            · exact AddrCallsOK_exist_add env mplink subnet rest delta _ hen hok
            · intro hnone s hs hens
              rcases List.mem_cons.1 hs with he | he
              · subst he
                exact ⟨false, List.mem_cons_self _ _⟩
              · obtain ⟨f, hf1⟩ := hall hnone s he hens
                exact ⟨f, List.mem_cons_of_mem _ (List.mem_cons_of_mem _ hf1)⟩
    · rw [addManagementPortIPs_cons_disabled env udng interfaceName mplink subnet rest log hen]
      obtain ⟨delta, hd, hok, hall⟩ := ih log
      refine ⟨delta, hd, AddrCallsOK_skip env mplink subnet rest delta hok, ?_⟩
      intro hnone s hs hens
      rcases List.mem_cons.1 hs with he | he
      · subst he
        exact absurd hens hen
      · exact hall hnone s he hens

theorem addUDNManagementPort_core (env : Env) (udng : UserDefinedNetworkGateway) (log : Log) :
    ∃ mplink mid,
      (addUDNManagementPort env udng log).2 =
        log ++ (addUDNManagementPort env udng log).2.drop log.length ∧
      (∀ ev, (ev ∈ (addUDNManagementPort env udng log).2.drop log.length ∧
        isLinkAddrEvent ev = true) ↔ ev ∈ mid) ∧
      ((∃ e, networkLocalSubnets env udng = Except.error e ∧ mid = []) ∨
        ∃ subnets, networkLocalSubnets env udng = Except.ok subnets ∧
          AddrCallsOK env mplink subnets mid ∧
          ∀ link, (addUDNManagementPort env udng log).1 = Except.ok link →
            link = mplink ∧ ∀ s ∈ subnets, subnetFamilyEnabled env s →
              ∃ f, Event.LinkAddrExist mplink (env.GetNodeManagementIfAddr s) f none ∈ mid) := by
  unfold addUDNManagementPort
  simp only []
  split
  next e he =>
    exact ⟨⟨0, ""⟩, [], by simp, by simp, Or.inl ⟨e, he, rfl⟩⟩
  next subnets hs =>
    split
    next e1 h1 =>
      exact ⟨⟨0, ""⟩, [], by simp, by simp [isLinkAddrEvent],
        Or.inr ⟨subnets, hs, AddrCallsOK_nil _ _ _, by simp⟩⟩
    next h1 =>
      split
      next e2 h2 =>
        exact ⟨⟨0, ""⟩, [], by simp, by simp [isLinkAddrEvent],
          Or.inr ⟨subnets, hs, AddrCallsOK_nil _ _ _, by simp⟩⟩
      next h2 =>
        split
        next e3 h3 =>
          exact ⟨⟨0, ""⟩, [], by simp, by simp [isLinkAddrEvent],
            Or.inr ⟨subnets, hs, AddrCallsOK_nil _ _ _, by simp⟩⟩
        next h3 =>
          split
          next e4 h4 =>
            exact ⟨⟨0, ""⟩, [], by simp, by simp [isLinkAddrEvent],
              Or.inr ⟨subnets, hs, AddrCallsOK_nil _ _ _, by simp⟩⟩
          next h4 =>
            obtain ⟨delta, hd, hok, hall⟩ := addManagementPortIPs_events env udng
              (mgmtInterfaceName env udng) _ subnets _
            rw [hd]
            have hmid : ∀ ev ∈ delta, isLinkAddrEvent ev = true := hok.1
            split
            next e5 h5 =>
              refine ⟨_, delta, by simp, ?_, Or.inr ⟨subnets, hs, hok, by simp⟩⟩
              intro ev
              simp only [List.append_assoc, List.drop_left, List.mem_append, List.mem_cons,
                List.mem_singleton, List.not_mem_nil, or_false]
              constructor
              · rintro ⟨h | h | h | h | h, hl⟩
                all_goals first | exact h | (subst h; simp [isLinkAddrEvent] at hl)
              · intro h
                exact ⟨Or.inr (Or.inr (Or.inr (Or.inr h))), hmid ev h⟩
            next h5 =>
              split
              next e6 h6 =>
                refine ⟨_, delta, by simp, ?_, Or.inr ⟨subnets, hs, hok, by simp⟩⟩
                intro ev
                simp only [List.append_assoc, List.drop_left, List.mem_append, List.mem_cons,
                  List.mem_singleton, List.not_mem_nil, or_false]
                constructor
                · rintro ⟨h | h | h | h | h | h, hl⟩
                  all_goals first | exact h | (subst h; simp [isLinkAddrEvent] at hl)
                · intro h
                  exact ⟨Or.inr (Or.inr (Or.inr (Or.inr (Or.inl h)))), hmid ev h⟩
              next h6 =>
                refine ⟨_, delta, by simp, ?_, Or.inr ⟨subnets, hs, hok, ?_⟩⟩
                · intro ev
                  simp only [List.append_assoc, List.drop_left, List.mem_append, List.mem_cons,
                    List.mem_singleton, List.not_mem_nil, or_false]
                  constructor
                  · rintro ⟨h | h | h | h | h | h, hl⟩
                    all_goals first | exact h | (subst h; simp [isLinkAddrEvent] at hl)
                  · intro h
                    exact ⟨Or.inr (Or.inr (Or.inr (Or.inr (Or.inl h)))), hmid ev h⟩
                · intro link hlink
                  injection hlink with hlink
                  exact ⟨hlink.symm, hall h5⟩

theorem addManagementPortIPs_addrs (env : Env) (udng : UserDefinedNetworkGateway)
    (interfaceName : String) (mplink : Link) (subnets : List IPNet) (log delta : Log)
    (hd : (addManagementPortIPs env udng interfaceName mplink subnets log).2 = log ++ delta) :
    addedAddrs delta = absentAddrs delta ∧
    (∃ rest, enabledAddrs env subnets = checkedAddrs delta ++ rest) ∧
    ((addManagementPortIPs env udng interfaceName mplink subnets log).1 = none →
      checkedAddrs delta = enabledAddrs env subnets) := by
  induction subnets generalizing log delta with
  | nil =>
    have : delta = [] := by
      simp [addManagementPortIPs] at hd
      exact hd
    subst this
    simp [addedAddrs, absentAddrs, checkedAddrs, enabledAddrs]
  | cons subnet rest ih =>
    by_cases hen : subnetFamilyEnabled env subnet
    · have hE : enabledAddrs env (subnet :: rest) =
          env.GetNodeManagementIfAddr subnet :: enabledAddrs env rest := by
        simp [enabledAddrs, List.filter_cons, hen]
      cases hr : (env.LinkAddrExist log mplink (env.GetNodeManagementIfAddr subnet)).2 with
      | some e =>
        obtain ⟨hne, hlog⟩ := addManagementPortIPs_cons_exist_err env udng interfaceName mplink
          subnet rest log hen e hr
        rw [hlog] at hd
        have := List.append_cancel_left hd
        subst this
        refine ⟨by simp [addedAddrs, absentAddrs], ⟨enabledAddrs env rest, ?_⟩,
          fun h => absurd h hne⟩
        rw [hE]
        simp [checkedAddrs]
      | none =>
        cases hf : (env.LinkAddrExist log mplink (env.GetNodeManagementIfAddr subnet)).1 with
        | true =>
          rw [addManagementPortIPs_cons_found env udng interfaceName mplink subnet rest log
            hen hr hf] at hd ⊢
          obtain ⟨delta1, hd1, -, -⟩ := addManagementPortIPs_events env udng interfaceName
            mplink rest
            (log ++ [Event.LinkAddrExist mplink (env.GetNodeManagementIfAddr subnet) true none])
          obtain ⟨h1, ⟨tl, h2⟩, h3⟩ := ih _ delta1 hd1
          rw [hd1, List.append_assoc] at hd
          have := List.append_cancel_left hd
          subst this
          refine ⟨?_, ⟨tl, ?_⟩, ?_⟩
          · simpa [addedAddrs, absentAddrs] using h1
          · rw [hE, h2]
            simp [checkedAddrs]
          · intro hnone
            rw [hE, ← h3 hnone]
            simp [checkedAddrs]
        | false =>
          cases ha : env.LinkAddrAdd
              (log ++ [Event.LinkAddrExist mplink (env.GetNodeManagementIfAddr subnet)
                false none]) mplink (env.GetNodeManagementIfAddr subnet) with
          | some e =>
            obtain ⟨hne, hlog⟩ := addManagementPortIPs_cons_add_err env udng interfaceName
              mplink subnet rest log hen hr hf e ha
            rw [hlog] at hd
            have := List.append_cancel_left hd
            subst this
            refine ⟨by simp [addedAddrs, absentAddrs], ⟨enabledAddrs env rest, ?_⟩,
              fun h => absurd h hne⟩
            rw [hE]
            simp [checkedAddrs]
          | none =>
            rw [addManagementPortIPs_cons_added env udng interfaceName mplink subnet rest log
              hen hr hf ha] at hd ⊢
            obtain ⟨delta1, hd1, -, -⟩ := addManagementPortIPs_events env udng interfaceName
              mplink rest
              (log ++ [Event.LinkAddrExist mplink (env.GetNodeManagementIfAddr subnet)
                false none,
                Event.LinkAddrAdd mplink (env.GetNodeManagementIfAddr subnet) none])
            obtain ⟨h1, ⟨tl, h2⟩, h3⟩ := ih _ delta1 hd1
            rw [hd1, List.append_assoc] at hd
            have := List.append_cancel_left hd
            subst this
            refine ⟨?_, ⟨tl, ?_⟩, ?_⟩
            · simpa [addedAddrs, absentAddrs] using h1
            · rw [hE, h2]
              simp [checkedAddrs]
            · intro hnone
              rw [hE, ← h3 hnone]
              simp [checkedAddrs]
    · have hE : enabledAddrs env (subnet :: rest) = enabledAddrs env rest := by
        simp [enabledAddrs, List.filter_cons, hen]
      rw [addManagementPortIPs_cons_disabled env udng interfaceName mplink subnet rest log hen]
        at hd ⊢
      rw [hE]
      exact ih log delta hd

theorem addUDNManagementPort_addrs (env : Env) (udng : UserDefinedNetworkGateway) (log : Log) :
    addedAddrs ((addUDNManagementPort env udng log).2.drop log.length) =
      absentAddrs ((addUDNManagementPort env udng log).2.drop log.length) ∧
    (∀ subnets, networkLocalSubnets env udng = Except.ok subnets →
      ∃ rest, enabledAddrs env subnets =
        checkedAddrs ((addUDNManagementPort env udng log).2.drop log.length) ++ rest) ∧
    (∀ link subnets, (addUDNManagementPort env udng log).1 = Except.ok link →
      networkLocalSubnets env udng = Except.ok subnets →
      checkedAddrs ((addUDNManagementPort env udng log).2.drop log.length) =
        enabledAddrs env subnets) ∧
    (∀ e, networkLocalSubnets env udng = Except.error e →
      addUDNManagementPort env udng log = (Except.error e, log)) := by
  unfold addUDNManagementPort
  simp only []
  split
  next e he =>
    refine ⟨by simp [addedAddrs, absentAddrs], ?_, by simp, ?_⟩
    · intro subnets hs
      rw [he] at hs
      exact absurd hs (by simp)
    · intro e2 he2
      rw [he] at he2
      injection he2 with he2
      rw [he2]
  next subnets hs =>
    have hsub : ∀ subnets2, networkLocalSubnets env udng = Except.ok subnets2 →
        subnets2 = subnets := by
      intro subnets2 hs2
      rw [hs] at hs2
      injection hs2 with hs2
      exact hs2.symm
    have herr : ∀ e, networkLocalSubnets env udng = Except.error e → False := by
      intro e he
      rw [hs] at he
      exact absurd he (by simp)
    split
    next e1 h1 =>
      refine ⟨by simp [addedAddrs, absentAddrs], ?_, by simp, fun e he => (herr e he).elim⟩
      intro subnets2 _
      simp [checkedAddrs]
    next h1 =>
      split
      next e2 h2 =>
        refine ⟨by simp [addedAddrs, absentAddrs], ?_, by simp, fun e he => (herr e he).elim⟩
        intro subnets2 _
        simp [checkedAddrs]
      next h2 =>
        split
        next e3 h3 =>
          refine ⟨by simp [addedAddrs, absentAddrs], ?_, by simp,
            fun e he => (herr e he).elim⟩
          intro subnets2 _
          simp [checkedAddrs]
        next h3 =>
          split
          next e4 h4 =>
            refine ⟨by simp [addedAddrs, absentAddrs], ?_, by simp,
              fun e he => (herr e he).elim⟩
            intro subnets2 _
            simp [checkedAddrs]
          next h4 =>
            obtain ⟨delta, hd, -, -⟩ := addManagementPortIPs_events env udng
              (mgmtInterfaceName env udng) _ subnets _
            obtain ⟨hA, ⟨tl, hP⟩, hS⟩ := addManagementPortIPs_addrs env udng _ _ subnets _
              delta hd
            rw [hd]
            simp only [addedAddrs, absentAddrs, checkedAddrs] at hA hP hS
            split
            next e5 h5 =>
              refine ⟨?_, ?_, by simp, fun e he => (herr e he).elim⟩
              · simpa [addedAddrs, absentAddrs] using hA
              · intro subnets2 hs2
                rw [hsub subnets2 hs2]
                exact ⟨tl, by simpa [checkedAddrs] using hP⟩
            next h5 =>
              split
              next e6 h6 =>
                refine ⟨?_, ?_, by simp, fun e he => (herr e he).elim⟩
                · simpa [addedAddrs, absentAddrs] using hA
                · intro subnets2 hs2
                  rw [hsub subnets2 hs2]
                  exact ⟨tl, by simpa [checkedAddrs] using hP⟩
              next h6 =>
                refine ⟨?_, ?_, ?_, fun e he => (herr e he).elim⟩
                · simpa [addedAddrs, absentAddrs] using hA
                · intro subnets2 hs2
                  rw [hsub subnets2 hs2]
                  exact ⟨tl, by simpa [checkedAddrs] using hP⟩
                · intro link subnets2 _ hs2
                  rw [hsub subnets2 hs2]
                  simpa [checkedAddrs] using hS h5

/-! ## The claims on provisioning -/

/-- C10: among the calls that `addUDNManagementPort` makes, `LinkAddrAdd` is
called for an address exactly when `LinkAddrExist` was called for it and answered
"absent" without error, with the same order and multiplicity. Every check and
every add is for the management address of a local subnet whose family is
globally enabled, that is an IPv4 CIDR with IPv4 mode on or an IPv6 CIDR with
IPv6 mode on; the checked addresses are an initial part of the addresses of
those subnets, and all of them when the function succeeds, so a subnet of a
disabled family causes neither call. Per setting of the flags: with only IPv4 on
the checked addresses are those of the IPv4 subnets, with only IPv6 on those of
the IPv6 subnets, with both off neither call is made. With no local subnet, as
for a layer 2 network with an empty subnet list, neither call is made. The local
subnets are the parsed host subnets for layer 3 and the CIDRs of the network for
layer 2. -/
theorem addUDNManagementPort_address_calls (env : Env) (udng : UserDefinedNetworkGateway)
    (log : Log) :
    (addUDNManagementPort env udng log).2 =
      log ++ (addUDNManagementPort env udng log).2.drop log.length ∧
    (∀ l ip, (∃ r, Event.LinkAddrAdd l ip r ∈
        (addUDNManagementPort env udng log).2.drop log.length) ↔
      Event.LinkAddrExist l ip false none ∈
        (addUDNManagementPort env udng log).2.drop log.length) ∧
    (∀ l ip f r, Event.LinkAddrExist l ip f r ∈
        (addUDNManagementPort env udng log).2.drop log.length →
      ∃ subnets s, networkLocalSubnets env udng = Except.ok subnets ∧ s ∈ subnets ∧
        ((env.IsIPv4CIDR s = true ∧ env.IPv4Mode = true) ∨
          (env.IsIPv6CIDR s = true ∧ env.IPv6Mode = true)) ∧
        ip = env.GetNodeManagementIfAddr s) ∧
    (∀ l ip r, Event.LinkAddrAdd l ip r ∈
        (addUDNManagementPort env udng log).2.drop log.length →
      ∃ subnets s, networkLocalSubnets env udng = Except.ok subnets ∧ s ∈ subnets ∧
        ((env.IsIPv4CIDR s = true ∧ env.IPv4Mode = true) ∨
          (env.IsIPv6CIDR s = true ∧ env.IPv6Mode = true)) ∧
        ip = env.GetNodeManagementIfAddr s) ∧
    (env.IPv6Mode = false →
      ∀ l ip r, Event.LinkAddrAdd l ip r ∈
          (addUDNManagementPort env udng log).2.drop log.length →
        ∃ subnets s, networkLocalSubnets env udng = Except.ok subnets ∧ s ∈ subnets ∧
          env.IPv4Mode = true ∧ env.IsIPv4CIDR s = true ∧
          ip = env.GetNodeManagementIfAddr s) ∧
    (networkLocalSubnets env udng = Except.ok [] →
      ∀ ev ∈ (addUDNManagementPort env udng log).2.drop log.length,
        isLinkAddrEvent ev = false) ∧
    (udng.netInfo.TopologyType = Layer2Topology → udng.netInfo.Subnets = [] →
      networkLocalSubnets env udng = Except.ok [] ∧
      ∀ ev ∈ (addUDNManagementPort env udng log).2.drop log.length,
        isLinkAddrEvent ev = false) ∧
    (∀ link subnets, (addUDNManagementPort env udng log).1 = Except.ok link →
      networkLocalSubnets env udng = Except.ok subnets →
      ∀ s ∈ subnets,
        ((env.IsIPv4CIDR s = true ∧ env.IPv4Mode = true) ∨
          (env.IsIPv6CIDR s = true ∧ env.IPv6Mode = true)) →
        ∃ f, Event.LinkAddrExist link (env.GetNodeManagementIfAddr s) f none ∈
          (addUDNManagementPort env udng log).2.drop log.length) ∧
    addedAddrs ((addUDNManagementPort env udng log).2.drop log.length) =
      absentAddrs ((addUDNManagementPort env udng log).2.drop log.length) ∧
    (∀ subnets, networkLocalSubnets env udng = Except.ok subnets →
      ∃ rest,
        (subnets.filter (fun s => decide ((env.IsIPv4CIDR s = true ∧ env.IPv4Mode = true) ∨
          (env.IsIPv6CIDR s = true ∧ env.IPv6Mode = true)))).map
            env.GetNodeManagementIfAddr =
          checkedAddrs ((addUDNManagementPort env udng log).2.drop log.length) ++ rest) ∧
    (∀ link subnets, (addUDNManagementPort env udng log).1 = Except.ok link →
      networkLocalSubnets env udng = Except.ok subnets →
      checkedAddrs ((addUDNManagementPort env udng log).2.drop log.length) =
        (subnets.filter (fun s => decide ((env.IsIPv4CIDR s = true ∧ env.IPv4Mode = true) ∨
          (env.IsIPv6CIDR s = true ∧ env.IPv6Mode = true)))).map
            env.GetNodeManagementIfAddr) ∧
    (env.IPv4Mode = true → env.IPv6Mode = false →
      ∀ link subnets, (addUDNManagementPort env udng log).1 = Except.ok link →
        networkLocalSubnets env udng = Except.ok subnets →
        checkedAddrs ((addUDNManagementPort env udng log).2.drop log.length) =
          (subnets.filter env.IsIPv4CIDR).map env.GetNodeManagementIfAddr) ∧
    (env.IPv4Mode = false → env.IPv6Mode = true →
      ∀ link subnets, (addUDNManagementPort env udng log).1 = Except.ok link →
        networkLocalSubnets env udng = Except.ok subnets →
        checkedAddrs ((addUDNManagementPort env udng log).2.drop log.length) =
          (subnets.filter env.IsIPv6CIDR).map env.GetNodeManagementIfAddr) ∧
    (env.IPv4Mode = false → env.IPv6Mode = false →
      ∀ ev ∈ (addUDNManagementPort env udng log).2.drop log.length,
        isLinkAddrEvent ev = false) ∧
    (udng.netInfo.TopologyType = Layer2Topology →
      networkLocalSubnets env udng =
        Except.ok (udng.netInfo.Subnets.map (fun s => s.CIDR))) ∧
    (udng.netInfo.TopologyType = Layer3Topology →
      (Env.ParseNodeHostSubnetAnnotation env udng.node udng.netInfo.GetNetworkName).2 = none →
      networkLocalSubnets env udng = Except.ok
        (Env.ParseNodeHostSubnetAnnotation env udng.node udng.netInfo.GetNetworkName).1) := by
  obtain ⟨mplink, mid, hlog, hmem, hcase⟩ := addUDNManagementPort_core env udng log
  have hord := addUDNManagementPort_addrs env udng log
  have hA : ∀ l ip r, Event.LinkAddrAdd l ip r ∈
      (addUDNManagementPort env udng log).2.drop log.length ↔
      Event.LinkAddrAdd l ip r ∈ mid :=
    fun l ip r => ⟨fun h => (hmem _).1 ⟨h, rfl⟩, fun h => ((hmem _).2 h).1⟩
  have hE : ∀ l ip f r, Event.LinkAddrExist l ip f r ∈
      (addUDNManagementPort env udng log).2.drop log.length ↔
      Event.LinkAddrExist l ip f r ∈ mid :=
    fun l ip f r => ⟨fun h => (hmem _).1 ⟨h, rfl⟩, fun h => ((hmem _).2 h).1⟩
  have hiff : ∀ l ip, (∃ r, Event.LinkAddrAdd l ip r ∈ mid) ↔
      Event.LinkAddrExist l ip false none ∈ mid := by
    rcases hcase with ⟨e, -, hnil⟩ | ⟨subnets, -, hok, -⟩
    · subst hnil; simp
    · exact hok.2.1
  have hexist : ∀ l ip f r, Event.LinkAddrExist l ip f r ∈ mid →
      ∃ subnets s, networkLocalSubnets env udng = Except.ok subnets ∧ s ∈ subnets ∧
        subnetFamilyEnabled env s ∧ ip = env.GetNodeManagementIfAddr s := by
    intro l ip f r hin
    rcases hcase with ⟨e, -, hnil⟩ | ⟨subnets, hs, hok, -⟩
    · subst hnil; simp at hin
    · obtain ⟨-, s, hsin, hen, hip⟩ := hok.2.2 l ip f r hin
      exact ⟨subnets, s, hs, hsin, hen, hip⟩
  have hadd : ∀ l ip r, Event.LinkAddrAdd l ip r ∈ mid →
      ∃ subnets s, networkLocalSubnets env udng = Except.ok subnets ∧ s ∈ subnets ∧
        subnetFamilyEnabled env s ∧ ip = env.GetNodeManagementIfAddr s :=
    fun l ip r hin => hexist l ip false none ((hiff l ip).1 ⟨r, hin⟩)
  have hnone : (∀ subnets s, networkLocalSubnets env udng = Except.ok subnets → s ∈ subnets →
      ¬ subnetFamilyEnabled env s) →
      ∀ ev ∈ (addUDNManagementPort env udng log).2.drop log.length,
        isLinkAddrEvent ev = false := by
    intro hno ev hev
    cases hk : isLinkAddrEvent ev with
    | false => rfl
    | true =>
      exfalso
      have hin := (hmem ev).1 ⟨hev, hk⟩
      cases ev with
      | LinkAddrExist l ip f r =>
        obtain ⟨subnets, s, hs2, hsin, hen, -⟩ := hexist l ip f r hin
        exact hno subnets s hs2 hsin hen
      | LinkAddrAdd l ip r =>
        obtain ⟨subnets, s, hs2, hsin, hen, -⟩ := hadd l ip r hin
        exact hno subnets s hs2 hsin hen
      | _ => simp [isLinkAddrEvent] at hk
  have hempty : networkLocalSubnets env udng = Except.ok [] →
      ∀ ev ∈ (addUDNManagementPort env udng log).2.drop log.length,
        isLinkAddrEvent ev = false := by
    intro hs
    apply hnone
    intro subnets s hs2 hsin
    rw [hs] at hs2
    injection hs2 with hs2
    subst hs2
    simp at hsin
  have hsucc : ∀ link subnets, (addUDNManagementPort env udng log).1 = Except.ok link →
      networkLocalSubnets env udng = Except.ok subnets →
      checkedAddrs ((addUDNManagementPort env udng log).2.drop log.length) =
        (subnets.filter (fun s => decide ((env.IsIPv4CIDR s = true ∧ env.IPv4Mode = true) ∨
          (env.IsIPv6CIDR s = true ∧ env.IPv6Mode = true)))).map
            env.GetNodeManagementIfAddr := hord.2.2.1
  have hL2 : udng.netInfo.TopologyType = Layer2Topology →
      networkLocalSubnets env udng =
        Except.ok (udng.netInfo.Subnets.map (fun s => s.CIDR)) := by
    intro h2
    have hne : Layer2Topology ≠ Layer3Topology := by decide
    have hfold : ∀ (l : List CIDRNetworkSpec) (init : List IPNet),
        l.foldl (fun acc s => acc ++ [s.CIDR]) init = init ++ l.map (fun s => s.CIDR) := by
      intro l
      induction l with
      | nil => simp
      | cons x rest ih => intro init; simp [ih]
    simp [networkLocalSubnets, h2, hne, hfold]
  refine ⟨hlog, ?_, ?_, ?_, ?_, hempty, ?_, ?_, hord.1, hord.2.1, hsucc, ?_, ?_, ?_, hL2, ?_⟩
  · intro l ip
    constructor
    · rintro ⟨r, hr⟩
      exact (hE l ip false none).2 ((hiff l ip).1 ⟨r, (hA l ip r).1 hr⟩)
    · intro h
      obtain ⟨r, hr⟩ := (hiff l ip).2 ((hE l ip false none).1 h)
      exact ⟨r, (hA l ip r).2 hr⟩
  · intro l ip f r h
    exact hexist l ip f r ((hE l ip f r).1 h)
  · intro l ip r h
    exact hadd l ip r ((hA l ip r).1 h)
  · intro h6 l ip r h
    obtain ⟨subnets, s, hs, hsin, hen, hip⟩ := hadd l ip r ((hA l ip r).1 h)
    rcases hen with ⟨c4, m4⟩ | ⟨-, m6⟩
    · exact ⟨subnets, s, hs, hsin, m4, c4, hip⟩
    · rw [h6] at m6
      exact absurd m6 (by simp)
  · intro h2 hsub
    have hs := hL2 h2
    rw [hsub] at hs
    exact ⟨hs, hempty hs⟩
  · intro link subnets hlink hs s hsin hen
    rcases hcase with ⟨e, he, -⟩ | ⟨subnets2, hs2, -, hall⟩
    · rw [hs] at he
      exact absurd he (by simp)
    · rw [hs] at hs2
      injection hs2 with hs2
      subst hs2
      obtain ⟨hl, hall2⟩ := hall link hlink
      obtain ⟨f, hf⟩ := hall2 s hsin hen
      subst hl
      exact ⟨f, (hE _ _ _ _).2 hf⟩
  · intro m4 m6 link subnets hlink hs
    rw [hsucc link subnets hlink hs]
    congr 1
    apply List.filter_congr
    intro s _
    simp [m4, m6]
  · intro m4 m6 link subnets hlink hs
    rw [hsucc link subnets hlink hs]
    congr 1
    apply List.filter_congr
    intro s _
    simp [m4, m6]
  · intro m4 m6
    apply hnone
    intro subnets s _ _ hen
    rcases hen with ⟨-, h⟩ | ⟨-, h⟩
    · rw [m4] at h; exact absurd h (by simp)
    · rw [m6] at h; exact absurd h (by simp)
  · intro h3 hp
    simp [networkLocalSubnets, h3, hp]

/-- On the example environment (IPv4 only, one IPv4 and one IPv6 local subnet,
no address on the link yet) `addUDNManagementPort` checks and adds the IPv4
management address only. -/
theorem addUDNManagementPort_example :
    (addUDNManagementPort exampleEnv exampleGateway []).2.filter isLinkAddrEvent =
      [Event.LinkAddrExist { Index := 12, Name := "ovn-k8s-mp5" }
          { IP := [10, 128, 0, 0], Mask := [255, 255, 255, 0] } false none,
        Event.LinkAddrAdd { Index := 12, Name := "ovn-k8s-mp5" }
          { IP := [10, 128, 0, 0], Mask := [255, 255, 255, 0] } none] := by
  decide

end GatewayUDN
